import Mathlib

/-!
Verification development for the timetable alarm subsystem.

The embedding models, directly from the source:
- the durable IndexedDB alarm store keyed by `id` with an `alarmTime` index
  (records serialize `Date` values as fixed-width UTC ISO-8601 strings, whose
  lexicographic order agrees with numeric millisecond order, so instants are
  modelled as `Int` milliseconds since the epoch);
- the foreground alarm service: `parseTimeString`, `calculateAlarmTime`,
  `generateAlarmId`, `saveAlarmToDB`, `scheduleAlarm`, `cancelAllAlarms`,
  and the `setupAlarms` reconcile effect of the schedule view;
- the background service-worker dispatcher: `startRingingAlarm`,
  `stopRingingAlarm`, `checkAlarms`, and the snooze and dismiss branches of
  the notificationclick handler.

JavaScript `Date` semantics are modelled for a fixed-offset host timezone
(`tz` minutes east of UTC, no DST): local-time field setters work on
`instant + tz*60000`, `toISOString` works on the instant itself. An invalid
`Date` (NaN time value) is modelled as `none : Option Int`; `toISOString` on
an invalid date throws, which the source catches, so serialization of an
invalid date performs no store write.
-/

/-! ## Civil calendar arithmetic (UTC day number ↔ year-month-day)

Standard Gregorian conversions used to model the date component of
`Date.prototype.toISOString`. All divisors are positive, and `Int` division
in Lean is Euclidean, which coincides with the floor division used by the
JavaScript date algorithms for positive divisors. -/

def civilFromDays (z0 : Int) : Int × Int × Int :=
  let z := z0 + 719468
  let era := z / 146097
  let doe := z - era * 146097
  let yoe := (doe - doe / 1460 + doe / 36524 - doe / 146096) / 365
  let y := yoe + era * 400
  let doy := doe - (365 * yoe + yoe / 4 - yoe / 100)
  let mp := (5 * doy + 2) / 153
  let d := doy - (153 * mp + 2) / 5 + 1
  let m := mp + (if mp < 10 then 3 else -9)
  (y + (if m ≤ 2 then 1 else 0), m, d)

def daysFromCivil (y0 m d : Int) : Int :=
  let y := y0 - (if m ≤ 2 then 1 else 0)
  let era := y / 400
  let yoe := y - era * 400
  let mp := m + (if m > 2 then -3 else 9)
  let doy := (153 * mp + 2) / 5 + d - 1
  let doe := yoe * 365 + yoe / 4 - yoe / 100 + doy
  era * 146097 + doe - 719468

def padTo2 (n : Int) : String :=
  if n < 10 then "0" ++ toString n.toNat else toString n.toNat

def padTo4 (n : Int) : String :=
  let s := toString n.toNat
  String.mk (List.replicate (4 - s.length) '0') ++ s

/-- Date component of `Date.prototype.toISOString().split('T')[0]`: the UTC
calendar day containing the instant, rendered as `YYYY-MM-DD`. -/
def isoDateString (instant : Int) : String :=
  let day := instant / 86400000
  let c := civilFromDays day
  padTo4 c.1 ++ "-" ++ padTo2 c.2.1 ++ "-" ++ padTo2 c.2.2

/-- The instant of local midnight of a calendar day, in a host timezone that
is `tz` minutes east of UTC. This is how the schedule view constructs
`currentDate` (`new Date(y, m, d)` at a fixed-offset host). -/
def localMidnight (tz y m d : Int) : Int :=
  daysFromCivil y m d * 86400000 - tz * 60000

/-! ## JavaScript string-to-number fragment -/

def isDigit (c : Char) : Bool := '0' ≤ c && c ≤ '9'

def digitsVal (l : List Char) : Int :=
  (l.foldl (fun a c => a * 10 + (c.toNat - '0'.toNat)) 0 : Nat)

/-- The exact set of characters the ECMAScript string-to-number conversion
trims: WhiteSpace (TAB, VT, FF, SP, NBSP, ZWNBSP and the Unicode
space-separator category) together with the line terminators. -/
def jsWhitespaceChar (c : Char) : Bool :=
  decide (c = ' ') || decide (c = '\t') || decide (c = '\n') || decide (c = '\r') ||
  decide (c = '\u000B') || decide (c = '\u000C') || decide (c = '\u00A0') ||
  decide (c = '\uFEFF') || decide (c = '\u1680') ||
  (decide ('\u2000' ≤ c) && decide (c ≤ '\u200A')) ||
  decide (c = '\u2028') || decide (c = '\u2029') || decide (c = '\u202F') ||
  decide (c = '\u205F') || decide (c = '\u3000')

/-- Leading and trailing whitespace removal of the ECMAScript
string-to-number conversion. -/
def jsTrim (l : List Char) : List Char :=
  ((l.dropWhile jsWhitespaceChar).reverse.dropWhile jsWhitespaceChar).reverse

/-- The integer fragment of the JavaScript `Number()` string coercion used
by `parseTimeString` (`timeStr.split(':').map(Number)`), exact on its
domain: after whitespace trimming, the empty string coerces to 0 and an
optionally signed all-digit string to its exact integer value. Every other
string yields `none` — both the truly non-numeric strings (NaN under the
full string-numeric literal test, see `numberNaN`) and numeric forms the
integer model does not represent (fractions, exponents, hex, Infinity).
For the latter the model conservatively produces no store record; no
theorem of this development asserts a skip from `jsNumber = none` — skip
assertions go through `numberNaN`, which implements the complete test. -/
def jsNumber (s : String) : Option Int :=
  let l := jsTrim s.data
  if l = [] then some 0
  else if l.head? = some '-' then
    (if l.tail ≠ [] ∧ l.tail.all isDigit then some (-(digitsVal l.tail)) else none)
  else if l.head? = some '+' then
    (if l.tail ≠ [] ∧ l.tail.all isDigit then some (digitsVal l.tail) else none)
  else if l.all isDigit then some (digitsVal l) else none

/-- Split of a character list at every occurrence of a separator character.
Structural companion of `jsSplit`. -/
def splitCharList (sep : Char) : List Char → List (List Char)
  | [] => [[]]
  | c :: rest =>
      match splitCharList sep rest with
      | [] => [[]]
      | h :: t => if c = sep then [] :: h :: t else (c :: h) :: t

/-- JavaScript `String.prototype.split` with a single-character separator,
the only form the source uses (`timeStr.split(':')`): the empty string
yields `[""]`, separators at the edges yield empty components. -/
def jsSplit (s : String) (sep : Char) : List String :=
  (splitCharList sep s.data).map String.mk

def isHexDigit (c : Char) : Bool :=
  isDigit c || (decide ('a' ≤ c) && decide (c ≤ 'f')) ||
  (decide ('A' ≤ c) && decide (c ≤ 'F'))

def isOctDigit (c : Char) : Bool := decide ('0' ≤ c) && decide (c ≤ '7')

def isBinDigit (c : Char) : Bool := decide (c = '0') || decide (c = '1')

def infinityChars : List Char := ['I', 'n', 'f', 'i', 'n', 'i', 't', 'y']

/-- Exponent body after the `e`/`E`: an optionally signed nonempty digit
string, consuming the whole rest. -/
def exponentTail (l : List Char) : Bool :=
  let l2 := if l.head? = some '+' ∨ l.head? = some '-' then l.tail else l
  !l2.isEmpty && l2.all isDigit

/-- Optional exponent part closing a decimal literal; anything else left
over makes the literal fail. -/
def exponentOpt : List Char → Bool
  | [] => true
  | c :: r => (decide (c = 'e') || decide (c = 'E')) && exponentTail r

/-- `StrUnsignedDecimalLiteral` of the ECMAScript string-to-number
conversion: `Infinity`, `digits [. digits?] [exponent]` or
`. digits [exponent]`. -/
def unsignedDecimal (l : List Char) : Bool :=
  if l = infinityChars then true
  else
    let d1 := l.takeWhile isDigit
    let r1 := l.dropWhile isDigit
    if d1.isEmpty then
      match r1 with
      | '.' :: r2 =>
          let d2 := r2.takeWhile isDigit
          let r3 := r2.dropWhile isDigit
          !d2.isEmpty && exponentOpt r3
      | _ => false
    else
      match r1 with
      | '.' :: r2 =>
          let r3 := r2.dropWhile isDigit
          exponentOpt r3
      | _ => exponentOpt r1

/-- `StrDecimalLiteral`: an optionally signed unsigned decimal literal. -/
def strDecimal (l : List Char) : Bool :=
  if l.head? = some '+' then unsignedDecimal l.tail
  else if l.head? = some '-' then unsignedDecimal l.tail
  else unsignedDecimal l

/-- The non-decimal integer literals `0x… 0o… 0b…` (no sign allowed). -/
def nonDecimal (l : List Char) : Bool :=
  match l with
  | '0' :: c :: rest =>
      ((decide (c = 'x') || decide (c = 'X')) && !rest.isEmpty && rest.all isHexDigit) ||
      ((decide (c = 'o') || decide (c = 'O')) && !rest.isEmpty && rest.all isOctDigit) ||
      ((decide (c = 'b') || decide (c = 'B')) && !rest.isEmpty && rest.all isBinDigit)
  | _ => false

/-- `StrNumericLiteral`: a decimal literal or a non-decimal integer
literal. The two alternatives are disjoint, so their union is the complete
production. -/
def numericBody (l : List Char) : Bool :=
  strDecimal l || nonDecimal l

/-- Exactly when JavaScript `Number()` coerces the string to NaN: the
trimmed string is nonempty and fails the complete `StringNumericLiteral`
production. This test involves no numeric value, so it is exact for every
string. -/
def numberNaN (s : String) : Bool :=
  let t := jsTrim s.data
  !t.isEmpty && !numericBody t

/-- Does component `i` of the split time string coerce to NaN (a missing
component is `undefined`, which `setHours` coerces to NaN)? -/
def componentNaN (t : String) (i : Nat) : Bool :=
  match (jsSplit t ':').get? i with
  | none => true
  | some c => numberNaN c

/-- The hour or the minute read of `parseTimeString` is NaN, making the
parsed `Date` invalid in the source. -/
def timeNaN (t : String) : Bool := componentNaN t 0 || componentNaN t 1

/-- A component is within the fragment on which the integer model provably
coincides with the JavaScript computation: either genuinely NaN, or an
integer string of magnitude at most 10^9 (so every intermediate of the
`setHours` arithmetic stays exactly representable and far below the Date
TimeClip bound). -/
def modeledComponent (c : String) : Bool :=
  numberNaN c ||
  (match jsNumber c with
   | some v => decide (-1000000000 ≤ v) && decide (v ≤ 1000000000)
   | none => false)

/-- Both read components of the time string are within the modelled
fragment. -/
def timeModeled (t : String) : Bool :=
  (match (jsSplit t ':').get? 0 with | none => true | some c => modeledComponent c) &&
  (match (jsSplit t ':').get? 1 with | none => true | some c => modeledComponent c)

/-! ## Foreground alarm service (src/services/alarmService.ts) -/

/-- `parseTimeString(timeStr, date)`: splits on `:`, coerces the first two
components with `Number`, and calls `alarmDate.setHours(hours, minutes, 0, 0)`
on a copy of `date`. A missing component is `undefined`, which `setHours`
coerces to NaN; NaN fields make the date invalid (`none`). `setHours` works
in local time: it replaces the time-of-day of the local calendar day
containing `date`. The embedding idealizes instants as unbounded integers:
the Date TimeClip bound (an instant is invalid beyond ±8.64·10^15 ms) is
not applied here, and every theorem whose fidelity could depend on it
restricts its date and field magnitudes (see `timeModeled` and the date
hypotheses of the malformed-time theorem) so the bound cannot trigger. -/
def parseTimeString (tz : Int) (timeStr : String) (date : Int) : Option Int :=
  let parts := (jsSplit timeStr ':').map jsNumber
  match (parts.get? 0).join, (parts.get? 1).join with
  | some h, some m =>
      let lms := date + tz * 60000
      let localDay := lms / 86400000
      some (localDay * 86400000 + h * 3600000 + m * 60000 - tz * 60000)
  | _, _ => none

/-- `calculateAlarmTime(classTime)`: `setMinutes(getMinutes() - 10)`, which
for a fixed-offset timezone is exactly ten minutes earlier; an invalid input
date stays invalid. -/
def calculateAlarmTime (classTime : Option Int) : Option Int :=
  classTime.map (fun t => t - 600000)

/-- `generateAlarmId(date, time, subject)`:
`date.toISOString().split('T')[0] + "-" + time + "-" + subject`. The date
argument is always a valid `Date` at the call sites. -/
def generateAlarmId (date : Int) (time subject : String) : String :=
  isoDateString date ++ "-" ++ time ++ "-" ++ subject

/-- Serialized shape of a durable store record:
`{id, time, subject, date: ISO string, alarmTime: ISO string, enabled}`,
with the two ISO instants modelled as `Int` milliseconds. -/
structure StoredAlarm where
  id : String
  time : String
  subject : String
  date : Int
  alarmTime : Int
  enabled : Bool
deriving DecidableEq, Repr

abbrev Store := List StoredAlarm

/-- IndexedDB `store.put` on a store keyed by `id`: replace the record with
the same key if one exists, otherwise append. -/
def putRecord (rec : StoredAlarm) : Store → Store
  | [] => [rec]
  | b :: t => if b.id = rec.id then rec :: t else b :: putRecord rec t

/-- IndexedDB `store.delete(id)`: a no-op when the key is absent. -/
def deleteRecord (alarmId : String) (s : Store) : Store :=
  s.filter (fun r => r.id ≠ alarmId)

def uniqueIds (s : Store) : Prop := (s.map (fun r => r.id)).Nodup

instance (s : Store) : Decidable (uniqueIds s) := by
  unfold uniqueIds; infer_instance

/-- The in-page `AlarmInfo` interface. The two `Date` fields may be invalid
(`none`). The `setupAlarms` effect constructs objects without the `enabled`
field; that absence is modelled as `false` (the value is irrelevant, since
`scheduleAlarm` overwrites it with `true` before persisting). -/
structure AlarmInfo where
  id : String
  time : String
  subject : String
  date : Option Int
  alarmTime : Option Int
  enabled : Bool
deriving DecidableEq, Repr

/-- `saveAlarmToDB`: serializes `date` and `alarmTime` with `toISOString`
and `put`s the result. `toISOString` on an invalid date throws a RangeError,
which the surrounding try/catch turns into a logged no-op, so nothing is
written unless both dates are valid. -/
def saveAlarmToDB (info : AlarmInfo) (s : Store) : Store :=
  match info.date, info.alarmTime with
  | some d, some t =>
      putRecord { id := info.id, time := info.time, subject := info.subject,
                  date := d, alarmTime := t, enabled := info.enabled } s
  | _, _ => s

/-- `scheduleAlarm`: persists `{...alarmInfo, enabled: true}` via
`saveAlarmToDB`. The in-memory `setTimeout` bookkeeping only posts a
`CHECK_ALARMS` message later and never touches the durable store. -/
def scheduleAlarm (info : AlarmInfo) (s : Store) : Store :=
  saveAlarmToDB { info with enabled := true } s

/-- `cancelAllAlarms`: `store.clear()` on the durable store. -/
def cancelAllAlarms (_ : Store) : Store := []

/-- A `TimeSlot` of the external `DaySchedule` collaborator. -/
structure TimeSlot where
  time : String
  subject : String
deriving DecidableEq, Repr

/-- The desired reminder set of a reconcile run: the slots of the displayed
day that should have an alarm (`masterAlarmEnabled` or individually
toggled). -/
def desiredSlots (master : Bool) (enabledAlarms : List String)
    (slots : List TimeSlot) (currentDate : Int) : List TimeSlot :=
  slots.filter (fun s =>
    master || enabledAlarms.contains (generateAlarmId currentDate s.time s.subject))

/-- The `setupAlarms` reconcile effect of the schedule view: cancel every
stored record, return early when nothing is desired, otherwise build one
`AlarmInfo` per desired slot (id from `generateAlarmId`, `alarmTime` =
class time minus ten minutes, no `enabled` field) and `scheduleAlarm` each. -/
def setupAlarms (tz : Int) (master : Bool) (enabledAlarms : List String)
    (slots : List TimeSlot) (currentDate : Int) (s : Store) : Store :=
  let cleared := cancelAllAlarms s
  if !master && enabledAlarms.isEmpty then cleared
  else
    let toSchedule : List AlarmInfo := slots.filterMap (fun slot =>
      let alarmId := generateAlarmId currentDate slot.time slot.subject
      if master || enabledAlarms.contains alarmId then
        some { id := alarmId, time := slot.time, subject := slot.subject,
               date := some currentDate,
               alarmTime := calculateAlarmTime (parseTimeString tz slot.time currentDate),
               enabled := false }
      else none)
    toSchedule.foldl (fun st a => scheduleAlarm a st) cleared

/-! ## Background dispatcher (service worker) -/

/-- One entry of the in-memory `activeRingingAlarms` map. -/
structure RingingInfo where
  startTime : Int
  snoozeCount : Int
  lastNotificationTime : Int
deriving DecidableEq, Repr, Inhabited

/-- The in-memory `activeRingingAlarms` JavaScript `Map`, as an association
list with unique keys in insertion order. -/
abbrev RingingMap := List (String × RingingInfo)

def lookupR (r : RingingMap) (i : String) : Option RingingInfo :=
  (r.find? (fun p => p.1 = i)).map (fun p => p.2)

def hasKeyR (r : RingingMap) (i : String) : Bool := (lookupR r i).isSome

/-- JavaScript `Map.set`: update the existing entry in place, else append. -/
def insertR : RingingMap → String → RingingInfo → RingingMap
  | [], i, v => [(i, v)]
  | p :: r, i, v => if p.1 = i then (i, v) :: r else p :: insertR r i v

/-- JavaScript `Map.delete`. -/
def eraseR (i : String) (r : RingingMap) : RingingMap :=
  r.filter (fun p => p.1 ≠ i)

/-- The field mutation `ringingAlarm.lastNotificationTime = Date.now()`. -/
def updateLNT (i : String) (t : Int) (r : RingingMap) : RingingMap :=
  r.map (fun p => if p.1 = i then (p.1, { p.2 with lastNotificationTime := t }) else p)

/-- Observable dispatcher effects: notification-centre operations (by tag)
and messages posted to foreground clients. -/
inductive Event where
  | notifClosed : String → Event
  | notifShown : String → Event
  | alarmRinging : String → Event
  | alarmStopped : String → Event
deriving DecidableEq, Repr

/-- Notification tag `alarm-${id}` keying the user-visible alert. -/
def alarmTag (i : String) : String := "alarm-" ++ i

/-- `startRingingAlarm(alarmId, alarm, isNew)`: close any notification with
the tag of this record, show a fresh one, and either register the ringing
entry and broadcast `ALARM_RINGING` (new or not yet tracked) or refresh
`lastNotificationTime` (already tracked and `isNew` is false). -/
def startRingingAlarm (now : Int) (alarmId : String) (alarm : StoredAlarm)
    (isNew : Bool) (r : RingingMap) : RingingMap × List Event :=
  let closeShow := [Event.notifClosed (alarmTag alarm.id), Event.notifShown (alarmTag alarm.id)]
  if isNew || !hasKeyR r alarmId then
    (insertR r alarmId { startTime := now, snoozeCount := 0, lastNotificationTime := now },
     closeShow ++ [Event.alarmRinging alarmId])
  else
    (updateLNT alarmId now r, closeShow)

/-- `stopRingingAlarm(alarmId)`: drop the ringing entry, close the tagged
notification, broadcast `ALARM_STOPPED`. -/
def stopRingingAlarm (alarmId : String) (r : RingingMap) : RingingMap × List Event :=
  (eraseR alarmId r, [Event.notifClosed (alarmTag alarmId), Event.alarmStopped alarmId])

/-- The `ringingAlarm.lastNotificationTime || ringingAlarm.startTime` read
of the source, with the JavaScript falsy fallback (0 falls back to
`startTime`). -/
def lntOf (ra : RingingInfo) : Int :=
  if ra.lastNotificationTime = 0 then ra.startTime else ra.lastNotificationTime

/-- The already-tracked side of the loop body: re-show the notification when
more than 30 s have passed since the last one, else do nothing yet. -/
def reassertStep (now : Int) (r : RingingMap) (alarm : StoredAlarm) :
    RingingMap × List Event :=
  if now - lntOf ((lookupR r alarm.id).getD default) > 30000 then
    startRingingAlarm now alarm.id alarm false r
  else (r, [])

/-- The body of the `checkAlarms` for-loop for one candidate record:
skip disabled records; inside the firing window
(`-60000 ≤ now - alarmTime < 120000`) either start ringing (not yet
tracked), or run `reassertStep` and re-broadcast `ALARM_RINGING`. -/
def checkAlarmsStep (now : Int) (r : RingingMap) (alarm : StoredAlarm) :
    RingingMap × List Event :=
  if !alarm.enabled then (r, [])
  else if -60000 ≤ now - alarm.alarmTime ∧ now - alarm.alarmTime < 120000 then
    if !hasKeyR r alarm.id then
      startRingingAlarm now alarm.id alarm true r
    else
      ((reassertStep now r alarm).1,
       (reassertStep now r alarm).2 ++ [Event.alarmRinging alarm.id])
  else (r, [])

/-- The `checkAlarms` for-loop over the candidate list, threading the
ringing map and concatenating effects in loop order. -/
def runList (now : Int) : List StoredAlarm → RingingMap → RingingMap × List Event
  | [], r => (r, [])
  | a :: t, r =>
      let s := checkAlarmsStep now r a
      let rest := runList now t s.1
      (rest.1, s.2 ++ rest.2)

/-- `checkAlarms()`: a readonly transaction queries the `alarmTime` index
with `IDBKeyRange.upperBound(now + 60000)` (on fixed-width ISO strings this
is exactly `alarmTime ≤ now + 60000`) and runs the per-record loop. The
store is never written. -/
def checkAlarms (now : Int) (s : Store) (r : RingingMap) : RingingMap × List Event :=
  runList now (s.filter (fun a => a.alarmTime ≤ now + 60000)) r

/-- Dispatcher state visible to a scan: the durable store and the in-memory
ringing map. -/
structure DispatcherState where
  store : Store
  ringing : RingingMap
deriving DecidableEq, Repr

/-- One dispatcher scan as a state transition: `checkAlarms` runs inside a
readonly transaction and performs no `put`, `delete` or `clear`, so the
store component is passed through unchanged. -/
def scanState (now : Int) (st : DispatcherState) : DispatcherState × List Event :=
  let res := checkAlarms now st.store st.ringing
  ({ store := st.store, ringing := res.1 }, res.2)

/-- A sequence of scans at the given times against a fixed store, threading
the ringing map. -/
def runScans : List Int → Store → RingingMap → RingingMap × List Event
  | [], _, r => (r, [])
  | t :: rest, s, r =>
      let one := checkAlarms t s r
      let more := runScans rest s one.1
      (more.1, one.2 ++ more.2)

/-- A sequence of scans with each effect tagged by its scan time. -/
def runScansTimed : List Int → Store → RingingMap → RingingMap × List (Int × Event)
  | [], _, r => (r, [])
  | t :: rest, s, r =>
      let one := checkAlarms t s r
      let more := runScansTimed rest s one.1
      (more.1, one.2.map (fun e => (t, e)) ++ more.2)

/-- The record update of the snooze branch: `alarmTime` becomes five minutes
from now (`now + 5 * 60 * 1000` ms) and the record stays enabled; every
other field, the id included, is unchanged. -/
def snoozedRecord (now : Int) (alarm : StoredAlarm) : StoredAlarm :=
  { alarm with alarmTime := now + 5 * 60 * 1000, enabled := true }

/-- The snooze branch of the notificationclick handler: close the clicked
notification, `stopRingingAlarm`, then read the record by id; when present,
set `alarmTime` to five minutes from now and `enabled` to true, delete the
ringing entry again, `put` the record back, and show a snooze-confirmation
notification. -/
def snoozeAlarm (now : Int) (alarmId : String) (s : Store) (r : RingingMap) :
    Store × RingingMap × List Event :=
  let stopped := stopRingingAlarm alarmId r
  match s.find? (fun a => a.id = alarmId) with
  | some alarm =>
      (putRecord (snoozedRecord now alarm) s, eraseR alarmId stopped.1,
       Event.notifClosed (alarmTag alarmId) :: stopped.2 ++ [Event.notifShown "snooze-confirmation"])
  | none => (s, stopped.1, Event.notifClosed (alarmTag alarmId) :: stopped.2)

/-- The dismiss branch of the notificationclick handler: close the clicked
notification, `stopRingingAlarm`, and delete the record from the durable
store. -/
def dismissAlarm (alarmId : String) (s : Store) (r : RingingMap) :
    Store × RingingMap × List Event :=
  let stopped := stopRingingAlarm alarmId r
  (deleteRecord alarmId s, stopped.1, Event.notifClosed (alarmTag alarmId) :: stopped.2)

/-- Does an effect concern the record with this id (its notification tag or
a message naming it)? -/
def touchesId (x : String) : Event → Bool
  | Event.notifClosed t => t = alarmTag x
  | Event.notifShown t => t = alarmTag x
  | Event.alarmRinging i => i = x
  | Event.alarmStopped i => i = x

/-- The platform notification centre as the list of tags of open
notifications. Closing removes every notification with the tag; showing
adds one (modelled without the automatic same-tag replacement of the
Notification API, so deduplication must come from the close-before-show
discipline of the dispatcher). Messages do not affect the centre. -/
def applyEvent (center : List String) : Event → List String
  | Event.notifClosed t => center.filter (fun x => x ≠ t)
  | Event.notifShown t => center ++ [t]
  | Event.alarmRinging _ => center
  | Event.alarmStopped _ => center

def applyEvents (evs : List Event) (center : List String) : List String :=
  evs.foldl applyEvent center

/-- Modelled from the spec: a slot time is well-formed `HH:MM` when it is
two nonempty all-digit components separated by a single colon, with hour
below 24 and minute below 60. Used only to state claims that speak about
parseable and malformed times; the source has no such predicate. -/
def validHHMM (t : String) : Bool :=
  match jsSplit t ':' with
  | [h, m] =>
      decide (h.data ≠ []) && h.data.all isDigit &&
      decide (m.data ≠ []) && m.data.all isDigit &&
      decide (digitsVal h.data < 24) && decide (digitsVal m.data < 60)
  | _ => false

/-- The `AlarmInfo` object that the `setupAlarms` reconcile effect builds
for one desired slot (the source omits the `enabled` field). -/
def alarmInfoOf (tz : Int) (currentDate : Int) (slot : TimeSlot) : AlarmInfo :=
  { id := generateAlarmId currentDate slot.time slot.subject, time := slot.time,
    subject := slot.subject, date := some currentDate,
    alarmTime := calculateAlarmTime (parseTimeString tz slot.time currentDate),
    enabled := false }

/-- The serialized record that `scheduleAlarm` persists for an `AlarmInfo`
whose two dates are valid, with `enabled` forced to true. -/
def storedOf (info : AlarmInfo) (d t : Int) : StoredAlarm :=
  { id := info.id, time := info.time, subject := info.subject,
    date := d, alarmTime := t, enabled := true }

/-! ## Association-map and store lemmas -/

theorem lookupR_nil (i : String) : lookupR [] i = none := rfl

theorem lookupR_cons (p : String × RingingInfo) (r : RingingMap) (i : String) :
    lookupR (p :: r) i = if p.1 = i then some p.2 else lookupR r i := by
  by_cases h : p.1 = i <;> simp [lookupR, List.find?_cons, h]

theorem insertR_cons (p : String × RingingInfo) (r : RingingMap) (i : String)
    (v : RingingInfo) :
    insertR (p :: r) i v = if p.1 = i then (i, v) :: r else p :: insertR r i v := by
  simp [insertR]

theorem updateLNT_cons (i : String) (t : Int) (p : String × RingingInfo)
    (r : RingingMap) :
    updateLNT i t (p :: r) =
      (if p.1 = i then (p.1, { p.2 with lastNotificationTime := t }) else p) ::
        updateLNT i t r := by
  by_cases h : p.1 = i <;> simp [updateLNT, h]

theorem eraseR_cons (i : String) (p : String × RingingInfo) (r : RingingMap) :
    eraseR i (p :: r) = if p.1 = i then eraseR i r else p :: eraseR i r := by
  by_cases h : p.1 = i <;> simp [eraseR, List.filter_cons, h]

theorem lookupR_insertR_self (r : RingingMap) (i : String) (v : RingingInfo) :
    lookupR (insertR r i v) i = some v := by
  induction r with
  | nil => simp [insertR, lookupR_cons]
  | cons p t ih =>
      rw [insertR_cons]
      by_cases h : p.1 = i
      · rw [if_pos h, lookupR_cons]; simp
      · rw [if_neg h, lookupR_cons, if_neg h, ih]

theorem lookupR_insertR_ne (r : RingingMap) (i j : String) (v : RingingInfo)
    (h : j ≠ i) : lookupR (insertR r i v) j = lookupR r j := by
  induction r with
  | nil => rw [show insertR [] i v = [(i, v)] from rfl, lookupR_cons, if_neg (Ne.symm h)]
  | cons p t ih =>
      rw [insertR_cons]
      by_cases hp : p.1 = i
      · have hpj : ¬ p.1 = j := fun hh => (Ne.symm h) (hp.symm.trans hh)
        rw [if_pos hp, lookupR_cons, if_neg (Ne.symm h), lookupR_cons, if_neg hpj]
      · rw [if_neg hp, lookupR_cons, lookupR_cons, ih]

theorem lookupR_updateLNT_self (r : RingingMap) (i : String) (t : Int) :
    lookupR (updateLNT i t r) i =
      (lookupR r i).map (fun ra => { ra with lastNotificationTime := t }) := by
  induction r with
  | nil => rfl
  | cons p w ih =>
      rw [updateLNT_cons]
      by_cases h : p.1 = i
      · rw [if_pos h, lookupR_cons]; simp [h, lookupR_cons]
      · rw [if_neg h, lookupR_cons, if_neg h, ih, lookupR_cons, if_neg h]

theorem lookupR_updateLNT_ne (r : RingingMap) (i j : String) (t : Int)
    (h : j ≠ i) : lookupR (updateLNT i t r) j = lookupR r j := by
  induction r with
  | nil => rfl
  | cons p w ih =>
      rw [updateLNT_cons]
      by_cases hp : p.1 = i
      · have hpj : ¬ p.1 = j := fun hh => (Ne.symm h) (hp.symm.trans hh)
        rw [if_pos hp, lookupR_cons, lookupR_cons, if_neg hpj, ih]
        simp [hpj]
      · rw [if_neg hp, lookupR_cons, lookupR_cons, ih]

theorem lookupR_eraseR_self (r : RingingMap) (i : String) :
    lookupR (eraseR i r) i = none := by
  induction r with
  | nil => rfl
  | cons p t ih =>
      rw [eraseR_cons]
      by_cases h : p.1 = i
      · rw [if_pos h]; exact ih
      · rw [if_neg h, lookupR_cons, if_neg h, ih]

theorem lookupR_eraseR_ne (r : RingingMap) (i j : String) (h : j ≠ i) :
    lookupR (eraseR i r) j = lookupR r j := by
  induction r with
  | nil => rfl
  | cons p t ih =>
      rw [eraseR_cons]
      by_cases hp : p.1 = i
      · have hpj : ¬ p.1 = j := fun hh => (Ne.symm h) (hp.symm.trans hh)
        rw [if_pos hp, ih, lookupR_cons, if_neg hpj]
      · rw [if_neg hp, lookupR_cons, lookupR_cons, ih]

theorem alarmTag_inj {i j : String} (h : alarmTag i = alarmTag j) : i = j := by
  have h2 : ("alarm-" ++ i).data = ("alarm-" ++ j).data := congrArg String.data h
  rw [String.data_append, String.data_append] at h2
  have h3 : i.data = j.data := List.append_cancel_left h2
  cases i
  cases j
  exact congrArg String.mk h3

/-! ## Shape of one dispatcher loop step -/

theorem step_disabled (now : Int) (r : RingingMap) (a : StoredAlarm)
    (h : a.enabled = false) : checkAlarmsStep now r a = (r, []) := by
  unfold checkAlarmsStep
  rw [if_pos (by simp [h])]

theorem step_outside (now : Int) (r : RingingMap) (a : StoredAlarm)
    (he : a.enabled = true)
    (hw : ¬(-60000 ≤ now - a.alarmTime ∧ now - a.alarmTime < 120000)) :
    checkAlarmsStep now r a = (r, []) := by
  unfold checkAlarmsStep
  rw [if_neg (by simp [he]), if_neg hw]

theorem step_not_enabled_or_outside (now : Int) (r : RingingMap) (a : StoredAlarm)
    (h : a.enabled = false ∨ ¬(-60000 ≤ now - a.alarmTime ∧ now - a.alarmTime < 120000)) :
    checkAlarmsStep now r a = (r, []) := by
  rcases h with h | h
  · exact step_disabled now r a h
  · by_cases he : a.enabled
    · exact step_outside now r a he h
    · exact step_disabled now r a (by simpa using he)

theorem step_new (now : Int) (r : RingingMap) (a : StoredAlarm)
    (he : a.enabled = true)
    (hw : -60000 ≤ now - a.alarmTime ∧ now - a.alarmTime < 120000)
    (hk : lookupR r a.id = none) :
    checkAlarmsStep now r a =
      (insertR r a.id { startTime := now, snoozeCount := 0, lastNotificationTime := now },
       [Event.notifClosed (alarmTag a.id), Event.notifShown (alarmTag a.id),
        Event.alarmRinging a.id]) := by
  unfold checkAlarmsStep
  rw [if_neg (by simp [he]), if_pos hw, if_pos (by simp [hasKeyR, hk])]
  unfold startRingingAlarm
  rw [if_pos (by simp)]
  rfl

theorem step_reassert (now : Int) (r : RingingMap) (a : StoredAlarm) (ra : RingingInfo)
    (he : a.enabled = true)
    (hw : -60000 ≤ now - a.alarmTime ∧ now - a.alarmTime < 120000)
    (hk : lookupR r a.id = some ra)
    (ht : now - lntOf ra > 30000) :
    checkAlarmsStep now r a =
      (updateLNT a.id now r,
       [Event.notifClosed (alarmTag a.id), Event.notifShown (alarmTag a.id),
        Event.alarmRinging a.id]) := by
  unfold checkAlarmsStep
  rw [if_neg (by simp [he]), if_pos hw, if_neg (by simp [hasKeyR, hk])]
  unfold reassertStep
  rw [hk]
  rw [if_pos (by simpa using ht)]
  unfold startRingingAlarm
  rw [if_neg (by simp [hasKeyR, hk])]
  rfl

theorem step_quiet (now : Int) (r : RingingMap) (a : StoredAlarm) (ra : RingingInfo)
    (he : a.enabled = true)
    (hw : -60000 ≤ now - a.alarmTime ∧ now - a.alarmTime < 120000)
    (hk : lookupR r a.id = some ra)
    (ht : ¬ now - lntOf ra > 30000) :
    checkAlarmsStep now r a = (r, [Event.alarmRinging a.id]) := by
  unfold checkAlarmsStep
  rw [if_neg (by simp [he]), if_pos hw, if_neg (by simp [hasKeyR, hk])]
  unfold reassertStep
  rw [hk]
  rw [if_neg (by simpa using ht)]
  rfl

theorem step_lookup_ne (now : Int) (r : RingingMap) (a : StoredAlarm) (j : String)
    (h : j ≠ a.id) : lookupR (checkAlarmsStep now r a).1 j = lookupR r j := by
  by_cases he : a.enabled
  · by_cases hw : (-60000 ≤ now - a.alarmTime ∧ now - a.alarmTime < 120000)
    · cases hk : lookupR r a.id with
      | none => rw [step_new now r a he hw hk]; exact lookupR_insertR_ne r a.id j _ h
      | some ra =>
          by_cases ht : now - lntOf ra > 30000
          · rw [step_reassert now r a ra he hw hk ht]
            exact lookupR_updateLNT_ne r a.id j now h
          · rw [step_quiet now r a ra he hw hk ht]
    · rw [step_outside now r a he hw]
  · rw [step_disabled now r a (by simpa using he)]

theorem step_filter_ne (now : Int) (r : RingingMap) (a : StoredAlarm) (j : String)
    (h : j ≠ a.id) : ((checkAlarmsStep now r a).2).filter (touchesId j) = [] := by
  have htag : ¬ (alarmTag a.id = alarmTag j) := fun hh => h (alarmTag_inj hh).symm
  have hid : ¬ (a.id = j) := fun hh => h hh.symm
  by_cases he : a.enabled
  · by_cases hw : (-60000 ≤ now - a.alarmTime ∧ now - a.alarmTime < 120000)
    · cases hk : lookupR r a.id with
      | none => rw [step_new now r a he hw hk]; simp [touchesId, htag, hid]
      | some ra =>
          by_cases ht : now - lntOf ra > 30000
          · rw [step_reassert now r a ra he hw hk ht]; simp [touchesId, htag, hid]
          · rw [step_quiet now r a ra he hw hk ht]; simp [touchesId, hid]
    · rw [step_outside now r a he hw]; rfl
  · rw [step_disabled now r a (by simpa using he)]; rfl

theorem step_congr (now : Int) (a : StoredAlarm) (r r2 : RingingMap)
    (hl : lookupR r a.id = lookupR r2 a.id) :
    (checkAlarmsStep now r a).2 = (checkAlarmsStep now r2 a).2 ∧
    lookupR (checkAlarmsStep now r a).1 a.id =
      lookupR (checkAlarmsStep now r2 a).1 a.id := by
  by_cases he : a.enabled
  · by_cases hw : (-60000 ≤ now - a.alarmTime ∧ now - a.alarmTime < 120000)
    · cases hk : lookupR r a.id with
      | none =>
          have hk2 : lookupR r2 a.id = none := hl.symm.trans hk
          rw [step_new now r a he hw hk, step_new now r2 a he hw hk2]
          exact ⟨rfl, by rw [lookupR_insertR_self, lookupR_insertR_self]⟩
      | some ra =>
          have hk2 : lookupR r2 a.id = some ra := hl.symm.trans hk
          by_cases ht : now - lntOf ra > 30000
          · rw [step_reassert now r a ra he hw hk ht,
                step_reassert now r2 a ra he hw hk2 ht]
            exact ⟨rfl, by rw [lookupR_updateLNT_self, lookupR_updateLNT_self, hk, hk2]⟩
          · rw [step_quiet now r a ra he hw hk ht, step_quiet now r2 a ra he hw hk2 ht]
            exact ⟨rfl, hl⟩
    · rw [step_outside now r a he hw, step_outside now r2 a he hw]
      exact ⟨rfl, hl⟩
  · rw [step_disabled now r a (by simpa using he), step_disabled now r2 a (by simpa using he)]
    exact ⟨rfl, hl⟩

/-! ## Locating a record in the scan loop -/

theorem find?_id_eq_none {s : Store} {x : String} (h : ∀ b ∈ s, b.id ≠ x) :
    s.find? (fun b => b.id = x) = none := by
  rw [List.find?_eq_none]
  intro b hb
  simpa using h b hb

theorem uniqueIds_cons {b : StoredAlarm} {t : Store} (hu : uniqueIds (b :: t)) :
    b.id ∉ t.map (fun r => r.id) ∧ uniqueIds t := by
  unfold uniqueIds at hu ⊢
  rw [List.map_cons, List.nodup_cons] at hu
  exact hu

theorem find?_id_unique {s : Store} {a : StoredAlarm} {x : String}
    (hu : uniqueIds s) (ha : a ∈ s) (hx : a.id = x) :
    s.find? (fun b => b.id = x) = some a := by
  induction s with
  | nil => cases ha
  | cons b t ih =>
      obtain ⟨hnb, hut⟩ := uniqueIds_cons hu
      rcases List.mem_cons.mp ha with rfl | hat
      · exact List.find?_cons_of_pos _ (by simpa using hx)
      · have hb : ¬ (b.id = x) := by
          intro hbx
          have hmem : a.id ∈ t.map (fun r => r.id) := List.mem_map_of_mem _ hat
          rw [hx] at hmem
          rw [hbx] at hnb
          exact hnb hmem
        rw [List.find?_cons_of_neg _ (by simpa using hb)]
        exact ih hut hat

theorem uniqueIds_filter (p : StoredAlarm → Bool) {s : Store} (hu : uniqueIds s) :
    uniqueIds (s.filter p) := by
  unfold uniqueIds at *
  exact List.Nodup.sublist (List.Sublist.map _ (List.filter_sublist s)) hu

theorem id_inj_of_unique {s : Store} (hu : uniqueIds s) {a b : StoredAlarm}
    (ha : a ∈ s) (hb : b ∈ s) (h : a.id = b.id) : a = b := by
  unfold uniqueIds at hu
  exact List.inj_on_of_nodup_map hu ha hb h

theorem runList_nil (now : Int) (r : RingingMap) : runList now [] r = (r, []) := rfl

theorem runList_cons (now : Int) (a : StoredAlarm) (t : List StoredAlarm)
    (r : RingingMap) :
    runList now (a :: t) r =
      ((runList now t (checkAlarmsStep now r a).1).1,
       (checkAlarmsStep now r a).2 ++ (runList now t (checkAlarmsStep now r a).1).2) := rfl

/-! ## What one scan does at a fixed record id -/

theorem runList_absent (now : Int) (x : String) :
    ∀ (l : List StoredAlarm) (r : RingingMap), (∀ b ∈ l, b.id ≠ x) →
      lookupR (runList now l r).1 x = lookupR r x ∧
      ((runList now l r).2).filter (touchesId x) = [] := by
  intro l
  induction l with
  | nil => intro r _; exact ⟨rfl, rfl⟩
  | cons b t ih =>
      intro r h
      have hbx : x ≠ b.id := fun hh => h b (List.mem_cons_self b t) hh.symm
      have iht := ih (checkAlarmsStep now r b).1 (fun c hc => h c (List.mem_cons_of_mem b hc))
      rw [runList_cons]
      refine ⟨iht.1.trans (step_lookup_ne now r b x hbx), ?_⟩
      rw [List.filter_append, step_filter_ne now r b x hbx, List.nil_append, iht.2]

theorem runList_at (now : Int) (x : String) :
    ∀ (l : List StoredAlarm) (r : RingingMap), uniqueIds l →
      ((l.find? (fun b => b.id = x)).elim
        (lookupR (runList now l r).1 x = lookupR r x ∧
         ((runList now l r).2).filter (touchesId x) = [])
        (fun a =>
          lookupR (runList now l r).1 x = lookupR (checkAlarmsStep now r a).1 x ∧
          ((runList now l r).2).filter (touchesId x) =
            ((checkAlarmsStep now r a).2).filter (touchesId x))) := by
  intro l
  induction l with
  | nil =>
      intro r _
      simp [runList_nil]
  | cons b t ih =>
      intro r hu
      obtain ⟨hnb, hut⟩ := uniqueIds_cons hu
      by_cases hbx : b.id = x
      · rw [List.find?_cons_of_pos _ (by simpa using hbx)]
        have hft : t.find? (fun c => c.id = x) = none := by
          apply find?_id_eq_none
          intro c hc hcx
          have hmem : c.id ∈ t.map (fun r => r.id) := List.mem_map_of_mem _ hc
          rw [hcx, ← hbx] at hmem
          exact hnb hmem
        have iht := ih (checkAlarmsStep now r b).1 hut
        rw [hft] at iht
        simp only [Option.elim] at iht ⊢
        rw [runList_cons]
        exact ⟨iht.1, by rw [List.filter_append, iht.2, List.append_nil]⟩
      · rw [List.find?_cons_of_neg _ (by simpa using hbx)]
        have hxb : x ≠ b.id := fun hh => hbx hh.symm
        have hlook : lookupR (checkAlarmsStep now r b).1 x = lookupR r x :=
          step_lookup_ne now r b x hxb
        have hfilt : ((checkAlarmsStep now r b).2).filter (touchesId x) = [] :=
          step_filter_ne now r b x hxb
        have iht := ih (checkAlarmsStep now r b).1 hut
        rw [runList_cons]
        cases hft : t.find? (fun c => c.id = x) with
        | none =>
            rw [hft] at iht
            simp only [Option.elim] at iht ⊢
            exact ⟨iht.1.trans hlook,
              by rw [List.filter_append, hfilt, List.nil_append, iht.2]⟩
        | some c =>
            rw [hft] at iht
            simp only [Option.elim] at iht ⊢
            have hcx : c.id = x := by simpa using List.find?_some hft
            have hlc : lookupR (checkAlarmsStep now r b).1 c.id = lookupR r c.id := by
              rw [hcx]; exact hlook
            have hcongr := step_congr now c (checkAlarmsStep now r b).1 r hlc
            constructor
            · rw [iht.1, ← hcx]
              exact hcongr.2
            · rw [List.filter_append, hfilt, List.nil_append, iht.2, hcongr.1]

theorem checkAlarms_at_absent (now : Int) (s : Store) (r : RingingMap) (x : String)
    (h : ∀ b ∈ s, b.id ≠ x) :
    lookupR (checkAlarms now s r).1 x = lookupR r x ∧
    ((checkAlarms now s r).2).filter (touchesId x) = [] := by
  unfold checkAlarms
  exact runList_absent now x _ r (fun b hb => h b (List.mem_of_mem_filter hb))

theorem checkAlarms_cand (now : Int) (s : Store) (r : RingingMap) (a : StoredAlarm)
    (hu : uniqueIds s) (ha : a ∈ s) (hcand : a.alarmTime ≤ now + 60000) :
    lookupR (checkAlarms now s r).1 a.id = lookupR (checkAlarmsStep now r a).1 a.id ∧
    ((checkAlarms now s r).2).filter (touchesId a.id) =
      ((checkAlarmsStep now r a).2).filter (touchesId a.id) := by
  unfold checkAlarms
  have hfu : uniqueIds (s.filter (fun b => b.alarmTime ≤ now + 60000)) :=
    uniqueIds_filter _ hu
  have haf : a ∈ s.filter (fun b => b.alarmTime ≤ now + 60000) :=
    List.mem_filter.mpr ⟨ha, by simpa using hcand⟩
  have hthis := runList_at now a.id (s.filter (fun b => b.alarmTime ≤ now + 60000)) r hfu
  rw [find?_id_unique hfu haf rfl] at hthis
  simpa only [Option.elim] using hthis

theorem checkAlarms_notcand (now : Int) (s : Store) (r : RingingMap) (a : StoredAlarm)
    (hu : uniqueIds s) (ha : a ∈ s) (hcand : ¬ a.alarmTime ≤ now + 60000) :
    lookupR (checkAlarms now s r).1 a.id = lookupR r a.id ∧
    ((checkAlarms now s r).2).filter (touchesId a.id) = [] := by
  unfold checkAlarms
  apply runList_absent
  intro b hb hbid
  have hbs : b ∈ s := List.mem_of_mem_filter hb
  have hba : b = a := id_inj_of_unique hu hbs ha hbid
  have hc : b.alarmTime ≤ now + 60000 := by simpa using (List.mem_filter.mp hb).2
  rw [hba] at hc
  exact hcand hc

theorem touch_false_of_filter_nil {evs : List Event} {x : String}
    (h : evs.filter (touchesId x) = []) : ∀ e ∈ evs, touchesId x e = false := by
  intro e he
  by_contra hne
  have htrue : touchesId x e = true := by
    cases hb : touchesId x e
    · exact absurd hb hne
    · rfl
  have hmem : e ∈ evs.filter (touchesId x) := List.mem_filter.mpr ⟨he, htrue⟩
  rw [h] at hmem
  cases hmem

theorem hasKey_false_lookup_none {r : RingingMap} {x : String}
    (h : hasKeyR r x = false) : lookupR r x = none := by
  unfold hasKeyR at h
  cases hl : lookupR r x
  · rfl
  · rw [hl] at h; cases h

/-! ## Firing and skipping, at the level of one whole scan -/

theorem fires_of_window (now : Int) (s : Store) (r : RingingMap) (a : StoredAlarm)
    (hu : uniqueIds s) (ha : a ∈ s) (he : a.enabled = true)
    (hr : hasKeyR r a.id = false)
    (hw : -60000 ≤ now - a.alarmTime ∧ now - a.alarmTime < 120000) :
    hasKeyR (checkAlarms now s r).1 a.id = true ∧
    Event.alarmRinging a.id ∈ (checkAlarms now s r).2 ∧
    Event.notifShown (alarmTag a.id) ∈ (checkAlarms now s r).2 ∧
    Event.notifClosed (alarmTag a.id) ∈ (checkAlarms now s r).2 := by
  have hk : lookupR r a.id = none := hasKey_false_lookup_none hr
  have hcand : a.alarmTime ≤ now + 60000 := by omega
  obtain ⟨h1, h2⟩ := checkAlarms_cand now s r a hu ha hcand
  rw [step_new now r a he hw hk] at h1 h2
  refine ⟨?_, ?_, ?_, ?_⟩
  · unfold hasKeyR
    rw [h1, lookupR_insertR_self]
    rfl
  · have hm : Event.alarmRinging a.id ∈ ((checkAlarms now s r).2).filter (touchesId a.id) := by
      rw [h2]; simp [touchesId]
    exact (List.mem_filter.mp hm).1
  · have hm : Event.notifShown (alarmTag a.id) ∈ ((checkAlarms now s r).2).filter (touchesId a.id) := by
      rw [h2]; simp [touchesId]
    exact (List.mem_filter.mp hm).1
  · have hm : Event.notifClosed (alarmTag a.id) ∈ ((checkAlarms now s r).2).filter (touchesId a.id) := by
      rw [h2]; simp [touchesId]
    exact (List.mem_filter.mp hm).1

theorem silent_scan (now : Int) (s : Store) (r : RingingMap) (a : StoredAlarm)
    (hu : uniqueIds s) (ha : a ∈ s)
    (h : a.enabled = false ∨ ¬(-60000 ≤ now - a.alarmTime ∧ now - a.alarmTime < 120000)) :
    lookupR (checkAlarms now s r).1 a.id = lookupR r a.id ∧
    ∀ e ∈ (checkAlarms now s r).2, touchesId a.id e = false := by
  have H : lookupR (checkAlarms now s r).1 a.id = lookupR r a.id ∧
      ((checkAlarms now s r).2).filter (touchesId a.id) = [] := by
    by_cases hcand : a.alarmTime ≤ now + 60000
    · obtain ⟨h1, h2⟩ := checkAlarms_cand now s r a hu ha hcand
      rw [step_not_enabled_or_outside now r a h] at h1 h2
      exact ⟨h1, h2⟩
    · exact checkAlarms_notcand now s r a hu ha hcand
  exact ⟨H.1, touch_false_of_filter_nil H.2⟩

/-! ## putRecord lemmas -/

theorem putRecord_mem_self (rec : StoredAlarm) : ∀ s : Store, rec ∈ putRecord rec s := by
  intro s
  induction s with
  | nil => simp [putRecord]
  | cons b t ih =>
      by_cases h : b.id = rec.id
      · simp [putRecord, h]
      · simp only [putRecord, if_neg h]
        exact List.mem_cons_of_mem b ih

theorem mem_putRecord {rec x : StoredAlarm} : ∀ {s : Store},
    x ∈ putRecord rec s → x = rec ∨ x ∈ s := by
  intro s
  induction s with
  | nil => intro h; simpa [putRecord] using h
  | cons b t ih =>
      intro h
      by_cases hb : b.id = rec.id
      · rw [putRecord, if_pos hb] at h
        rcases List.mem_cons.mp h with h2 | h2
        · exact Or.inl h2
        · exact Or.inr (List.mem_cons_of_mem b h2)
      · rw [putRecord, if_neg hb] at h
        rcases List.mem_cons.mp h with h2 | h2
        · exact Or.inr (h2 ▸ List.mem_cons_self b t)
        · rcases ih h2 with h3 | h3
          · exact Or.inl h3
          · exact Or.inr (List.mem_cons_of_mem b h3)

theorem mem_ids_putRecord (rec : StoredAlarm) (y : String) : ∀ s : Store,
    (y ∈ (putRecord rec s).map (fun r => r.id)) ↔
      (y = rec.id ∨ y ∈ s.map (fun r => r.id)) := by
  intro s
  induction s with
  | nil => simp [putRecord]
  | cons b t ih =>
      by_cases h : b.id = rec.id
      · rw [putRecord, if_pos h]
        simp only [List.map_cons, List.mem_cons, h]
        tauto
      · rw [putRecord, if_neg h]
        simp only [List.map_cons, List.mem_cons, ih]
        tauto

theorem uniqueIds_putRecord (rec : StoredAlarm) : ∀ {s : Store},
    uniqueIds s → uniqueIds (putRecord rec s) := by
  intro s
  induction s with
  | nil => intro _; simp [putRecord, uniqueIds]
  | cons b t ih =>
      intro hu
      obtain ⟨hnb, hut⟩ := uniqueIds_cons hu
      by_cases h : b.id = rec.id
      · rw [putRecord, if_pos h]
        unfold uniqueIds
        rw [List.map_cons, List.nodup_cons]
        exact ⟨h ▸ hnb, hut⟩
      · rw [putRecord, if_neg h]
        unfold uniqueIds
        rw [List.map_cons, List.nodup_cons]
        refine ⟨?_, ih hut⟩
        rw [mem_ids_putRecord]
        rintro (h2 | h2)
        · exact h h2
        · exact hnb h2

theorem find?_putRecord_self (rec : StoredAlarm) : ∀ s : Store,
    (putRecord rec s).find? (fun b => b.id = rec.id) = some rec := by
  intro s
  induction s with
  | nil => simp [putRecord, List.find?_cons]
  | cons b t ih =>
      by_cases h : b.id = rec.id
      · rw [putRecord, if_pos h]
        exact List.find?_cons_of_pos _ (by simp)
      · rw [putRecord, if_neg h]
        rw [List.find?_cons_of_neg _ (by simpa using h)]
        exact ih

/-! ## Scan sequences against a fixed store -/

theorem runScans_nil (s : Store) (r : RingingMap) : runScans [] s r = (r, []) := rfl

theorem runScans_cons (t : Int) (ts : List Int) (s : Store) (r : RingingMap) :
    runScans (t :: ts) s r =
      ((runScans ts s (checkAlarms t s r).1).1,
       (checkAlarms t s r).2 ++ (runScans ts s (checkAlarms t s r).1).2) := rfl

theorem runScans_absent (x : String) (s : Store) (h : ∀ b ∈ s, b.id ≠ x) :
    ∀ (ts : List Int) (r : RingingMap), hasKeyR r x = false →
      hasKeyR (runScans ts s r).1 x = false ∧
      ∀ e ∈ (runScans ts s r).2, touchesId x e = false := by
  intro ts
  induction ts with
  | nil =>
      intro r hr
      exact ⟨hr, by intro e he; cases he⟩
  | cons t ts ih =>
      intro r hr
      have h1 := checkAlarms_at_absent t s r x h
      have hr1 : hasKeyR (checkAlarms t s r).1 x = false := by
        unfold hasKeyR
        rw [h1.1]
        exact hr
      have iht := ih (checkAlarms t s r).1 hr1
      rw [runScans_cons]
      refine ⟨iht.1, ?_⟩
      intro e he
      rcases List.mem_append.mp he with h2 | h2
      · exact touch_false_of_filter_nil h1.2 e h2
      · exact iht.2 e h2

/-! ## Claims -/

/-- Claim C1: for an enabled record not currently tracked as ringing, a
dispatcher scan at time `now` starts it ringing (registers it in the ringing
map, shows the persistent notification, broadcasts `ALARM_RINGING`) exactly
when `now ≥ fireTime − 60 s` and `now < fireTime + 120 s`; outside that
window the scan leaves it untracked and produces no effect naming it. The
upper-bound index query (`alarmTime ≤ now + 60000`) coincides with the lower
edge of the window, so an in-window record such as `fireTime = now − 30 s`
is always among the candidates. -/
theorem claim_C1 (now : Int) (s : Store) (r : RingingMap) (a : StoredAlarm)
    (hu : uniqueIds s) (ha : a ∈ s) (he : a.enabled = true)
    (hr : hasKeyR r a.id = false) :
    ((-60000 ≤ now - a.alarmTime ∧ now - a.alarmTime < 120000) →
      hasKeyR (checkAlarms now s r).1 a.id = true ∧
      Event.alarmRinging a.id ∈ (checkAlarms now s r).2 ∧
      Event.notifShown (alarmTag a.id) ∈ (checkAlarms now s r).2) ∧
    (¬(-60000 ≤ now - a.alarmTime ∧ now - a.alarmTime < 120000) →
      hasKeyR (checkAlarms now s r).1 a.id = false ∧
      ∀ e ∈ (checkAlarms now s r).2, touchesId a.id e = false) := by
  constructor
  · intro hw
    obtain ⟨k, m1, m2, _⟩ := fires_of_window now s r a hu ha he hr hw
    exact ⟨k, m1, m2⟩
  · intro hw
    obtain ⟨h1, h2⟩ := silent_scan now s r a hu ha (Or.inr hw)
    refine ⟨?_, h2⟩
    unfold hasKeyR
    rw [h1]
    exact hr

/-- Witness for C1: a record with `fireTime = now − 30 s` (now = 1000000,
fireTime = 970000) fires; the same theorem instance also covers the
out-of-window direction vacuously. -/
theorem claim_C1_witness :
    uniqueIds [({ id := "2025-11-03-09:15-Econ", time := "09:15", subject := "Econ",
                  date := 0, alarmTime := 970000, enabled := true } : StoredAlarm)] ∧
    (({ id := "2025-11-03-09:15-Econ", time := "09:15", subject := "Econ",
        date := 0, alarmTime := 970000, enabled := true } : StoredAlarm) ∈
      [({ id := "2025-11-03-09:15-Econ", time := "09:15", subject := "Econ",
          date := 0, alarmTime := 970000, enabled := true } : StoredAlarm)]) ∧
    (((-60000 : Int) ≤ 1000000 - 970000 ∧ (1000000 : Int) - 970000 < 120000) →
      hasKeyR (checkAlarms 1000000
        [({ id := "2025-11-03-09:15-Econ", time := "09:15", subject := "Econ",
            date := 0, alarmTime := 970000, enabled := true } : StoredAlarm)] []).1
        "2025-11-03-09:15-Econ" = true ∧
      Event.alarmRinging "2025-11-03-09:15-Econ" ∈ (checkAlarms 1000000
        [({ id := "2025-11-03-09:15-Econ", time := "09:15", subject := "Econ",
            date := 0, alarmTime := 970000, enabled := true } : StoredAlarm)] []).2 ∧
      Event.notifShown (alarmTag "2025-11-03-09:15-Econ") ∈ (checkAlarms 1000000
        [({ id := "2025-11-03-09:15-Econ", time := "09:15", subject := "Econ",
            date := 0, alarmTime := 970000, enabled := true } : StoredAlarm)] []).2) :=
  ⟨by decide, by decide,
   (claim_C1 1000000
      [{ id := "2025-11-03-09:15-Econ", time := "09:15", subject := "Econ",
         date := 0, alarmTime := 970000, enabled := true }] []
      { id := "2025-11-03-09:15-Econ", time := "09:15", subject := "Econ",
        date := 0, alarmTime := 970000, enabled := true }
      (by decide) (by decide) (by decide) (by decide)).1⟩

/-- Claim C10: a scan skips a disabled record entirely — its ringing-map
entry is unchanged (in particular it never starts ringing) and no
notification or `ALARM_RINGING` broadcast names it, even when its fire time
lies inside the firing window. -/
theorem claim_C10 (now : Int) (s : Store) (r : RingingMap) (a : StoredAlarm)
    (hu : uniqueIds s) (ha : a ∈ s) (he : a.enabled = false) :
    hasKeyR (checkAlarms now s r).1 a.id = hasKeyR r a.id ∧
    ∀ e ∈ (checkAlarms now s r).2, touchesId a.id e = false := by
  obtain ⟨h1, h2⟩ := silent_scan now s r a hu ha (Or.inl he)
  refine ⟨?_, h2⟩
  unfold hasKeyR
  rw [h1]

/-- Witness for C10: a disabled record inside the firing window
(`fireTime = now − 30 s`) is skipped. -/
theorem claim_C10_witness :
    uniqueIds [({ id := "X", time := "09:15", subject := "Econ",
                  date := 0, alarmTime := 970000, enabled := false } : StoredAlarm)] ∧
    hasKeyR (checkAlarms 1000000
      [({ id := "X", time := "09:15", subject := "Econ",
          date := 0, alarmTime := 970000, enabled := false } : StoredAlarm)] []).1 "X" =
      hasKeyR [] "X" ∧
    ∀ e ∈ (checkAlarms 1000000
      [({ id := "X", time := "09:15", subject := "Econ",
          date := 0, alarmTime := 970000, enabled := false } : StoredAlarm)] []).2,
      touchesId "X" e = false :=
  ⟨by decide,
   (claim_C10 1000000
      [{ id := "X", time := "09:15", subject := "Econ",
         date := 0, alarmTime := 970000, enabled := false }] []
      { id := "X", time := "09:15", subject := "Econ",
        date := 0, alarmTime := 970000, enabled := false }
      (by decide) (by decide) (by decide)).1,
   (claim_C10 1000000
      [{ id := "X", time := "09:15", subject := "Econ",
         date := 0, alarmTime := 970000, enabled := false }] []
      { id := "X", time := "09:15", subject := "Econ",
        date := 0, alarmTime := 970000, enabled := false }
      (by decide) (by decide) (by decide)).2⟩

/-- Claim C7: a dispatcher scan never modifies the durable store — the
`checkAlarms` transaction is readonly and contains no put, delete or clear,
so the store component of the dispatcher state is passed through unchanged
by a scan, for every store and every scan time. -/
theorem claim_C7 (now : Int) (st : DispatcherState) :
    ((scanState now st).1).store = st.store := rfl

/-- Claim C3: dismissing a ringing record deletes it from the durable store,
removes it from the in-memory ringing map, closes its alert and broadcasts
`ALARM_STOPPED`; afterwards no sequence of scans ever produces an effect
naming it again, and it never re-enters the ringing map. -/
theorem claim_C3 (alarmId : String) (s : Store) (r : RingingMap) (ts : List Int) :
    (∀ rec ∈ (dismissAlarm alarmId s r).1, rec.id ≠ alarmId) ∧
    hasKeyR (dismissAlarm alarmId s r).2.1 alarmId = false ∧
    Event.alarmStopped alarmId ∈ (dismissAlarm alarmId s r).2.2 ∧
    Event.notifClosed (alarmTag alarmId) ∈ (dismissAlarm alarmId s r).2.2 ∧
    hasKeyR (runScans ts (dismissAlarm alarmId s r).1 (dismissAlarm alarmId s r).2.1).1
      alarmId = false ∧
    ∀ e ∈ (runScans ts (dismissAlarm alarmId s r).1 (dismissAlarm alarmId s r).2.1).2,
      touchesId alarmId e = false := by
  have hstore : ∀ rec ∈ (dismissAlarm alarmId s r).1, rec.id ≠ alarmId := by
    intro rec hrec
    have h2 : rec ∈ s.filter (fun r2 => r2.id ≠ alarmId) := hrec
    simpa using (List.mem_filter.mp h2).2
  have hkey : hasKeyR (dismissAlarm alarmId s r).2.1 alarmId = false := by
    show hasKeyR (eraseR alarmId r) alarmId = false
    unfold hasKeyR
    rw [lookupR_eraseR_self]
    rfl
  have hscan := runScans_absent alarmId (dismissAlarm alarmId s r).1 hstore ts
    (dismissAlarm alarmId s r).2.1 hkey
  refine ⟨hstore, hkey, ?_, ?_, hscan.1, hscan.2⟩
  · show Event.alarmStopped alarmId ∈
      [Event.notifClosed (alarmTag alarmId), Event.notifClosed (alarmTag alarmId),
       Event.alarmStopped alarmId]
    simp
  · show Event.notifClosed (alarmTag alarmId) ∈
      [Event.notifClosed (alarmTag alarmId), Event.notifClosed (alarmTag alarmId),
       Event.alarmStopped alarmId]
    simp

/-- Witness for C3: dismissing the only stored, ringing record and then
scanning twice produces no further effect for it. -/
theorem claim_C3_witness :
    (∀ rec ∈ (dismissAlarm "X"
        [({ id := "X", time := "09:15", subject := "Econ",
            date := 0, alarmTime := 0, enabled := true } : StoredAlarm)]
        [("X", { startTime := 0, snoozeCount := 0, lastNotificationTime := 0 })]).1,
      rec.id ≠ "X") ∧
    ∀ e ∈ (runScans [60000, 120000]
        (dismissAlarm "X"
          [({ id := "X", time := "09:15", subject := "Econ",
              date := 0, alarmTime := 0, enabled := true } : StoredAlarm)]
          [("X", { startTime := 0, snoozeCount := 0, lastNotificationTime := 0 })]).1
        (dismissAlarm "X"
          [({ id := "X", time := "09:15", subject := "Econ",
              date := 0, alarmTime := 0, enabled := true } : StoredAlarm)]
          [("X", { startTime := 0, snoozeCount := 0, lastNotificationTime := 0 })]).2.1).2,
      touchesId "X" e = false :=
  ⟨(claim_C3 "X"
      [{ id := "X", time := "09:15", subject := "Econ",
         date := 0, alarmTime := 0, enabled := true }]
      [("X", { startTime := 0, snoozeCount := 0, lastNotificationTime := 0 })]
      [60000, 120000]).1,
   (claim_C3 "X"
      [{ id := "X", time := "09:15", subject := "Econ",
         date := 0, alarmTime := 0, enabled := true }]
      [("X", { startTime := 0, snoozeCount := 0, lastNotificationTime := 0 })]
      [60000, 120000]).2.2.2.2.2⟩

/-- Claim C2: snoozing a ringing record with id `X` at time `T` updates the
record in place — same id, `alarmTime = T + 5 min`, `enabled = true` — and
removes `X` from the in-memory ringing map, so a scan at `T + 1 min` emits
no effect for `X` and does not re-track it, while a scan at `T + 5 min 30 s`
fires it again. -/
theorem claim_C2 (T : Int) (X : String) (s : Store) (r : RingingMap)
    (a : StoredAlarm) (hu : uniqueIds s)
    (hfind : s.find? (fun b => b.id = X) = some a) :
    (snoozeAlarm T X s r).1.find? (fun b => b.id = X) = some (snoozedRecord T a) ∧
    (snoozedRecord T a).id = a.id ∧
    (snoozedRecord T a).alarmTime = T + 5 * 60 * 1000 ∧
    (snoozedRecord T a).enabled = true ∧
    hasKeyR (snoozeAlarm T X s r).2.1 X = false ∧
    (∀ e ∈ (checkAlarms (T + 60000) (snoozeAlarm T X s r).1
        (snoozeAlarm T X s r).2.1).2, touchesId X e = false) ∧
    hasKeyR (checkAlarms (T + 60000) (snoozeAlarm T X s r).1
        (snoozeAlarm T X s r).2.1).1 X = false ∧
    Event.alarmRinging X ∈ (checkAlarms (T + 330000) (snoozeAlarm T X s r).1
        (checkAlarms (T + 60000) (snoozeAlarm T X s r).1
          (snoozeAlarm T X s r).2.1).1).2 ∧
    hasKeyR (checkAlarms (T + 330000) (snoozeAlarm T X s r).1
        (checkAlarms (T + 60000) (snoozeAlarm T X s r).1
          (snoozeAlarm T X s r).2.1).1).1 X = true := by
  have hax : a.id = X := by simpa using List.find?_some hfind
  have heq : snoozeAlarm T X s r =
      (putRecord (snoozedRecord T a) s,
       eraseR X (eraseR X r),
       [Event.notifClosed (alarmTag X), Event.notifClosed (alarmTag X),
        Event.alarmStopped X, Event.notifShown "snooze-confirmation"]) := by
    unfold snoozeAlarm stopRingingAlarm
    rw [hfind]
    rfl
  rw [heq]
  have ha2id : (snoozedRecord T a).id = X := hax
  have hu2 : uniqueIds (putRecord (snoozedRecord T a) s) := uniqueIds_putRecord _ hu
  have ha2mem : snoozedRecord T a ∈ putRecord (snoozedRecord T a) s :=
    putRecord_mem_self _ s
  have halt : (snoozedRecord T a).alarmTime = T + 5 * 60 * 1000 := rfl
  have hkey2 : hasKeyR (eraseR X (eraseR X r)) X = false := by
    unfold hasKeyR
    rw [lookupR_eraseR_self]
    rfl
  have hsilent := silent_scan (T + 60000) (putRecord (snoozedRecord T a) s)
    (eraseR X (eraseR X r)) (snoozedRecord T a) hu2 ha2mem
    (Or.inr (by rw [halt]; omega))
  rw [ha2id] at hsilent
  have hkey3 : hasKeyR (checkAlarms (T + 60000) (putRecord (snoozedRecord T a) s)
      (eraseR X (eraseR X r))).1 X = false := by
    unfold hasKeyR
    rw [hsilent.1]
    exact hkey2
  have hfires := fires_of_window (T + 330000) (putRecord (snoozedRecord T a) s)
    (checkAlarms (T + 60000) (putRecord (snoozedRecord T a) s)
      (eraseR X (eraseR X r))).1
    (snoozedRecord T a) hu2 ha2mem rfl (by rw [ha2id]; exact hkey3)
    (by rw [halt]; omega)
  rw [ha2id] at hfires
  refine ⟨?_, rfl, rfl, rfl, hkey2, hsilent.2, hkey3, hfires.2.1, hfires.1⟩
  rw [← hax]
  exact find?_putRecord_self (snoozedRecord T a) s

/-- Witness for C2: snoozing the single stored record at `T = 0` while it
rings; the follow-up scans behave as stated. -/
theorem claim_C2_witness :
    uniqueIds [({ id := "X", time := "09:15", subject := "Econ",
                  date := 0, alarmTime := -100, enabled := true } : StoredAlarm)] ∧
    ([({ id := "X", time := "09:15", subject := "Econ",
         date := 0, alarmTime := -100, enabled := true } : StoredAlarm)].find?
      (fun b => b.id = "X") =
      some { id := "X", time := "09:15", subject := "Econ",
             date := 0, alarmTime := -100, enabled := true }) ∧
    (snoozeAlarm 0 "X"
        [({ id := "X", time := "09:15", subject := "Econ",
            date := 0, alarmTime := -100, enabled := true } : StoredAlarm)]
        [("X", { startTime := -100, snoozeCount := 0,
                 lastNotificationTime := -100 })]).1.find? (fun b => b.id = "X") =
      some (snoozedRecord 0 { id := "X", time := "09:15", subject := "Econ",
                              date := 0, alarmTime := -100, enabled := true }) ∧
    hasKeyR (snoozeAlarm 0 "X"
        [({ id := "X", time := "09:15", subject := "Econ",
            date := 0, alarmTime := -100, enabled := true } : StoredAlarm)]
        [("X", { startTime := -100, snoozeCount := 0,
                 lastNotificationTime := -100 })]).2.1 "X" = false :=
  ⟨by decide, by decide,
   (claim_C2 0 "X"
      [{ id := "X", time := "09:15", subject := "Econ",
         date := 0, alarmTime := -100, enabled := true }]
      [("X", { startTime := -100, snoozeCount := 0, lastNotificationTime := -100 })]
      { id := "X", time := "09:15", subject := "Econ",
        date := 0, alarmTime := -100, enabled := true }
      (by decide) (by decide)).1,
   (claim_C2 0 "X"
      [{ id := "X", time := "09:15", subject := "Econ",
         date := 0, alarmTime := -100, enabled := true }]
      [("X", { startTime := -100, snoozeCount := 0, lastNotificationTime := -100 })]
      { id := "X", time := "09:15", subject := "Econ",
        date := 0, alarmTime := -100, enabled := true }
      (by decide) (by decide)).2.2.2.2.1⟩

/-! ## Reconcile machinery -/

theorem filterMap_if_eq {α β : Type} (p : α → Bool) (f : α → β) (l : List α) :
    l.filterMap (fun x => if p x then some (f x) else none) = (l.filter p).map f := by
  induction l with
  | nil => rfl
  | cons a t ih =>
      by_cases h : p a
      · simp [List.filterMap_cons, List.filter_cons, h, ih]
      · simp [List.filterMap_cons, List.filter_cons, h, ih]

theorem setupAlarms_eq (tz : Int) (master : Bool) (en : List String)
    (slots : List TimeSlot) (d : Int) (s : Store) :
    setupAlarms tz master en slots d s =
      ((desiredSlots master en slots d).map (alarmInfoOf tz d)).foldl
        (fun st a => scheduleAlarm a st) [] := by
  simp only [setupAlarms, desiredSlots, cancelAllAlarms]
  by_cases hm : (!master && en.isEmpty) = true
  · rw [if_pos hm]
    rw [Bool.and_eq_true] at hm
    obtain ⟨hm1, hm2⟩ := hm
    have hmf : master = false := by
      cases master
      · rfl
      · cases hm1
    have hen : en = [] := by
      cases en
      · rfl
      · cases hm2
    subst hmf
    subst hen
    simp
  · rw [if_neg hm]
    have hfm : List.filterMap
        (fun slot =>
          if master || en.contains (generateAlarmId d slot.time slot.subject) then
            some (alarmInfoOf tz d slot)
          else none) slots =
        List.map (alarmInfoOf tz d)
          (List.filter
            (fun sl => master || en.contains (generateAlarmId d sl.time sl.subject)) slots) :=
      filterMap_if_eq _ _ slots
    exact congrArg (fun l => List.foldl (fun st a => scheduleAlarm a st) [] l) hfm

theorem scheduleAlarm_eq (info : AlarmInfo) (s : Store) :
    scheduleAlarm info s =
      match info.date, info.alarmTime with
      | some d, some t => putRecord (storedOf info d t) s
      | _, _ => s := by
  unfold scheduleAlarm saveAlarmToDB storedOf
  cases info.date <;> cases info.alarmTime <;> rfl

theorem mem_scheduleAlarm {x : StoredAlarm} {info : AlarmInfo} {s : Store}
    (h : x ∈ scheduleAlarm info s) :
    x ∈ s ∨ ∃ d t, info.date = some d ∧ info.alarmTime = some t ∧
      x = storedOf info d t := by
  rw [scheduleAlarm_eq] at h
  cases hd : info.date with
  | none => rw [hd] at h; exact Or.inl h
  | some d =>
      cases ht : info.alarmTime with
      | none => rw [hd, ht] at h; exact Or.inl h
      | some t =>
          rw [hd, ht] at h
          rcases mem_putRecord h with h2 | h2
          · exact Or.inr ⟨d, t, rfl, rfl, h2⟩
          · exact Or.inl h2

theorem schedule_keeps_unique (info : AlarmInfo) {s : Store} (hu : uniqueIds s) :
    uniqueIds (scheduleAlarm info s) := by
  rw [scheduleAlarm_eq]
  cases info.date with
  | none => exact hu
  | some d =>
      cases info.alarmTime with
      | none => exact hu
      | some t => exact uniqueIds_putRecord _ hu

theorem foldl_schedule_unique : ∀ (l : List AlarmInfo) (s0 : Store),
    uniqueIds s0 → uniqueIds (l.foldl (fun st a => scheduleAlarm a st) s0) := by
  intro l
  induction l with
  | nil => intro s0 hu; exact hu
  | cons i t ih =>
      intro s0 hu
      rw [List.foldl_cons]
      exact ih (scheduleAlarm i s0) (schedule_keeps_unique i hu)

theorem mem_foldl_schedule : ∀ (l : List AlarmInfo) (s0 : Store) (x : StoredAlarm),
    x ∈ l.foldl (fun st a => scheduleAlarm a st) s0 →
    x ∈ s0 ∨ ∃ info ∈ l, ∃ d t, info.date = some d ∧ info.alarmTime = some t ∧
      x = storedOf info d t := by
  intro l
  induction l with
  | nil => intro s0 x h; exact Or.inl h
  | cons i t ih =>
      intro s0 x h
      rw [List.foldl_cons] at h
      rcases ih (scheduleAlarm i s0) x h with h2 | ⟨info, hinfo, d, tt, hd, ht, hx⟩
      · rcases mem_scheduleAlarm h2 with h3 | ⟨d, tt, hd, ht, hx⟩
        · exact Or.inl h3
        · exact Or.inr ⟨i, List.mem_cons_self i t, d, tt, hd, ht, hx⟩
      · exact Or.inr ⟨info, List.mem_cons_of_mem i hinfo, d, tt, hd, ht, hx⟩

theorem ids_foldl_schedule : ∀ (l : List AlarmInfo) (s0 : Store) (y : String),
    (y ∈ (l.foldl (fun st a => scheduleAlarm a st) s0).map (fun r => r.id)) ↔
      (y ∈ s0.map (fun r => r.id) ∨
       ∃ info ∈ l, info.date.isSome = true ∧ info.alarmTime.isSome = true ∧
         info.id = y) := by
  intro l
  induction l with
  | nil => intro s0 y; simp
  | cons i t ih =>
      intro s0 y
      rw [List.foldl_cons, ih (scheduleAlarm i s0) y]
      constructor
      · rintro (hy | ⟨info, hinfo, hd, ht, hid⟩)
        · rw [scheduleAlarm_eq] at hy
          cases hdi : i.date with
          | none => rw [hdi] at hy; exact Or.inl hy
          | some d =>
              cases hti : i.alarmTime with
              | none => rw [hdi, hti] at hy; exact Or.inl hy
              | some tt =>
                  rw [hdi, hti] at hy
                  rcases (mem_ids_putRecord (storedOf i d tt) y s0).mp hy with h2 | h2
                  · exact Or.inr ⟨i, List.mem_cons_self i t,
                      by rw [hdi]; rfl, by rw [hti]; rfl, h2.symm⟩
                  · exact Or.inl h2
        · exact Or.inr ⟨info, List.mem_cons_of_mem i hinfo, hd, ht, hid⟩
      · rintro (hy | ⟨info, hinfo, hd, ht, hid⟩)
        · left
          rw [scheduleAlarm_eq]
          cases hdi : i.date with
          | none => exact hy
          | some d =>
              cases hti : i.alarmTime with
              | none => exact hy
              | some tt => exact (mem_ids_putRecord (storedOf i d tt) y s0).mpr (Or.inr hy)
        · rcases List.mem_cons.mp hinfo with rfl | hmem
          · left
            rw [scheduleAlarm_eq]
            obtain ⟨d, hdi⟩ := Option.isSome_iff_exists.mp hd
            obtain ⟨tt, hti⟩ := Option.isSome_iff_exists.mp ht
            rw [hdi, hti]
            exact (mem_ids_putRecord (storedOf info d tt) y s0).mpr (Or.inl hid.symm)
          · exact Or.inr ⟨info, hmem, hd, ht, hid⟩

theorem filter_id_nil_of_not_mem {s : Store} {y : String}
    (h : y ∉ s.map (fun r => r.id)) : s.filter (fun r => r.id = y) = [] := by
  rw [List.filter_eq_nil_iff]
  intro b hb
  intro hby
  apply h
  have hby2 : b.id = y := by simpa using hby
  rw [← hby2]
  exact List.mem_map_of_mem _ hb

theorem filter_id_singleton {s : Store} (hu : uniqueIds s) {a : StoredAlarm}
    (ha : a ∈ s) : s.filter (fun r => r.id = a.id) = [a] := by
  induction s with
  | nil => cases ha
  | cons b t ih =>
      obtain ⟨hnb, hut⟩ := uniqueIds_cons hu
      rcases List.mem_cons.mp ha with rfl | hat
      · rw [List.filter_cons, if_pos (by simp)]
        rw [filter_id_nil_of_not_mem hnb]
      · have hb : ¬ (b.id = a.id) := by
          intro hh
          apply hnb
          rw [hh]
          exact List.mem_map_of_mem _ hat
        rw [List.filter_cons, if_neg (by simpa using hb)]
        exact ih hut hat

/-- Claim C9: every record that `scheduleAlarm` adds to the durable store
has `enabled = true`, whatever the `enabled` value of the `AlarmInfo` passed
in; when the dates are valid, the record stored under the id of the
`AlarmInfo` is enabled. -/
theorem claim_C9 (info : AlarmInfo) (s : Store) :
    (∀ rec ∈ scheduleAlarm info s, rec ∈ s ∨ rec.enabled = true) ∧
    (info.date.isSome = true → info.alarmTime.isSome = true →
      ∃ rec2, (scheduleAlarm info s).find? (fun b => b.id = info.id) = some rec2 ∧
        rec2.enabled = true) := by
  constructor
  · intro rec hrec
    rcases mem_scheduleAlarm hrec with h | ⟨d, t, _, _, hrec2⟩
    · exact Or.inl h
    · right
      rw [hrec2]
      rfl
  · intro hd ht
    obtain ⟨d, hdi⟩ := Option.isSome_iff_exists.mp hd
    obtain ⟨t, hti⟩ := Option.isSome_iff_exists.mp ht
    refine ⟨storedOf info d t, ?_, rfl⟩
    rw [scheduleAlarm_eq, hdi, hti]
    exact find?_putRecord_self (storedOf info d t) s

/-- Witness for C9: an `AlarmInfo` carrying `enabled = false` is still
persisted as an enabled record. -/
theorem claim_C9_witness :
    (∀ rec ∈ scheduleAlarm
        { id := "X", time := "09:15", subject := "Econ", date := some 0,
          alarmTime := some 100, enabled := false } [],
      rec ∈ ([] : Store) ∨ rec.enabled = true) ∧
    (({ id := "X", time := "09:15", subject := "Econ", date := some 0,
        alarmTime := some 100, enabled := false } : AlarmInfo).date.isSome = true ∧
     ∃ rec2, (scheduleAlarm
        { id := "X", time := "09:15", subject := "Econ", date := some 0,
          alarmTime := some 100, enabled := false } []).find?
          (fun b => b.id = "X") = some rec2 ∧ rec2.enabled = true) :=
  ⟨(claim_C9 { id := "X", time := "09:15", subject := "Econ", date := some 0,
               alarmTime := some 100, enabled := false } []).1,
   by decide,
   (claim_C9 { id := "X", time := "09:15", subject := "Econ", date := some 0,
               alarmTime := some 100, enabled := false } []).2 (by decide) (by decide)⟩

theorem digit_not_ws (c : Char) (h : isDigit c = true) :
    jsWhitespaceChar c = false := by
  unfold isDigit at h
  rw [Bool.and_eq_true] at h
  obtain ⟨h1, h2⟩ := h
  rw [decide_eq_true_eq] at h1 h2
  by_contra hw
  rw [Bool.not_eq_false] at hw
  unfold jsWhitespaceChar at hw
  simp only [Bool.or_eq_true, Bool.and_eq_true, decide_eq_true_eq] at hw
  casesm* _ ∨ _, _ ∧ _
  all_goals first
    | (subst_vars; exact absurd h1 (by decide))
    | (subst_vars; exact absurd h2 (by decide))
    | (exact absurd (le_trans (by assumption : ('\u2000' : Char) ≤ c) h2) (by decide))

theorem jsTrim_eq_self (l : List Char)
    (h : ∀ c ∈ l, jsWhitespaceChar c = false) : jsTrim l = l := by
  unfold jsTrim
  have h1 : l.dropWhile jsWhitespaceChar = l := by
    cases l with
    | nil => rfl
    | cons c r =>
        rw [List.dropWhile_cons, h c (List.mem_cons_self c r)]
        simp
  rw [h1]
  have h2 : l.reverse.dropWhile jsWhitespaceChar = l.reverse := by
    cases hr : l.reverse with
    | nil => rfl
    | cons c r =>
        have hc : c ∈ l := by
          rw [← List.mem_reverse, hr]
          exact List.mem_cons_self c r
        rw [List.dropWhile_cons, h c hc]
        simp
  rw [h2, List.reverse_reverse]

theorem takeWhile_of_all (p : Char → Bool) (l : List Char)
    (h : l.all p = true) : l.takeWhile p = l := by
  induction l with
  | nil => rfl
  | cons c r ih =>
      rw [List.all_cons, Bool.and_eq_true] at h
      rw [List.takeWhile_cons, h.1]
      simp [ih h.2]

theorem dropWhile_of_all (p : Char → Bool) (l : List Char)
    (h : l.all p = true) : l.dropWhile p = [] := by
  induction l with
  | nil => rfl
  | cons c r ih =>
      rw [List.all_cons, Bool.and_eq_true] at h
      rw [List.dropWhile_cons, h.1]
      simp [ih h.2]

theorem unsignedDecimal_digits (l : List Char) (h1 : l ≠ [])
    (h2 : l.all isDigit = true) : unsignedDecimal l = true := by
  have hinf : l ≠ infinityChars := by
    intro he
    rw [he] at h2
    exact absurd h2 (by decide)
  simp only [unsignedDecimal]
  rw [if_neg hinf, takeWhile_of_all isDigit l h2, dropWhile_of_all isDigit l h2]
  rcases l with _ | ⟨c, r⟩
  · exact absurd rfl h1
  · rfl

theorem strDecimal_digits (l : List Char) (h1 : l ≠ [])
    (h2 : l.all isDigit = true) : strDecimal l = true := by
  rcases l with _ | ⟨c, r⟩
  · exact absurd rfl h1
  · have hc : isDigit c = true := by
      rw [List.all_cons, Bool.and_eq_true] at h2
      exact h2.1
    have hp : ¬ ((c :: r).head? = some '+') := by
      simp only [List.head?_cons, Option.some.injEq]
      intro he
      rw [he] at hc
      exact absurd hc (by decide)
    have hm : ¬ ((c :: r).head? = some '-') := by
      simp only [List.head?_cons, Option.some.injEq]
      intro he
      rw [he] at hc
      exact absurd hc (by decide)
    simp only [strDecimal]
    rw [if_neg hp, if_neg hm]
    exact unsignedDecimal_digits (c :: r) (by simp) h2

theorem strDecimal_sign_digits (c0 : Char) (r : List Char)
    (hc : c0 = '+' ∨ c0 = '-') (h1 : r ≠ [])
    (h2 : r.all isDigit = true) : strDecimal (c0 :: r) = true := by
  simp only [strDecimal]
  rcases hc with hc | hc <;> subst hc
  · rw [if_pos (by simp)]
    exact unsignedDecimal_digits r h1 h2
  · rw [if_neg (by simp), if_pos (by simp)]
    exact unsignedDecimal_digits r h1 h2

theorem jsNumber_none_of_numberNaN (s : String) (h : numberNaN s = true) :
    jsNumber s = none := by
  unfold numberNaN at h
  rw [Bool.and_eq_true, Bool.not_eq_true', Bool.not_eq_true'] at h
  obtain ⟨he, hnb⟩ := h
  have ht1 : jsTrim s.data ≠ [] := by
    intro hx
    rw [hx] at he
    cases he
  simp only [jsNumber]
  rw [if_neg ht1]
  by_cases hm : (jsTrim s.data).head? = some '-'
  · rw [if_pos hm]
    by_cases hd : (jsTrim s.data).tail ≠ [] ∧ (jsTrim s.data).tail.all isDigit = true
    · exfalso
      rcases hcr : jsTrim s.data with _ | ⟨c, r⟩
      · exact ht1 hcr
      · rw [hcr] at hm hd hnb
        rw [List.head?_cons, Option.some.injEq] at hm
        subst hm
        have hb : numericBody ('-' :: r) = true := by
          unfold numericBody
          rw [strDecimal_sign_digits '-' r (Or.inr rfl) hd.1 hd.2]
          rfl
        rw [hb] at hnb
        cases hnb
    · rw [if_neg hd]
  · rw [if_neg hm]
    by_cases hp : (jsTrim s.data).head? = some '+'
    · rw [if_pos hp]
      by_cases hd : (jsTrim s.data).tail ≠ [] ∧ (jsTrim s.data).tail.all isDigit = true
      · exfalso
        rcases hcr : jsTrim s.data with _ | ⟨c, r⟩
        · exact ht1 hcr
        · rw [hcr] at hp hd hnb
          rw [List.head?_cons, Option.some.injEq] at hp
          subst hp
          have hb : numericBody ('+' :: r) = true := by
            unfold numericBody
            rw [strDecimal_sign_digits '+' r (Or.inl rfl) hd.1 hd.2]
            rfl
          rw [hb] at hnb
          cases hnb
      · rw [if_neg hd]
    · rw [if_neg hp]
      by_cases hall : (jsTrim s.data).all isDigit = true
      · exfalso
        have hb : numericBody (jsTrim s.data) = true := by
          unfold numericBody
          have hs : strDecimal (jsTrim s.data) = true := by
            simp only [strDecimal]
            rw [if_neg hp, if_neg hm]
            exact unsignedDecimal_digits _ ht1 hall
          rw [hs]
          rfl
        rw [hb] at hnb
        cases hnb
      · rw [if_neg hall]

theorem parse_none_of_timeNaN (tz d : Int) (t : String)
    (h : timeNaN t = true) : parseTimeString tz t d = none := by
  unfold timeNaN at h
  rw [Bool.or_eq_true] at h
  simp only [parseTimeString]
  rcases h with h | h
  · have h0 : (((jsSplit t ':').map jsNumber).get? 0).join = none := by
      unfold componentNaN at h
      rcases hg : (jsSplit t ':').get? 0 with _ | ⟨c⟩
      · rw [List.get?_map, hg]
        rfl
      · rw [hg] at h
        rw [List.get?_map, hg]
        show (some (jsNumber c)).join = none
        rw [jsNumber_none_of_numberNaN c h]
        rfl
    rw [h0]
  · have h1 : (((jsSplit t ':').map jsNumber).get? 1).join = none := by
      unfold componentNaN at h
      rcases hg : (jsSplit t ':').get? 1 with _ | ⟨c⟩
      · rw [List.get?_map, hg]
        rfl
      · rw [hg] at h
        rw [List.get?_map, hg]
        show (some (jsNumber c)).join = none
        rw [jsNumber_none_of_numberNaN c h]
        rfl
    rw [h1]
    rcases (((jsSplit t ':').map jsNumber).get? 0).join with _ | v <;> rfl

theorem jsNumber_digits (s : String) (h1 : s.data ≠ [])
    (h2 : s.data.all isDigit = true) : jsNumber s = some (digitsVal s.data) := by
  have htrim : jsTrim s.data = s.data := by
    refine jsTrim_eq_self s.data (fun c hc => digit_not_ws c ?_)
    rw [List.all_eq_true] at h2
    exact h2 c hc
  simp only [jsNumber]
  rw [htrim]
  rcases hd : s.data with _ | ⟨c, cs⟩
  · exact absurd hd h1
  · have hc : isDigit c = true := by
      rw [hd] at h2
      rw [List.all_cons, Bool.and_eq_true] at h2
      exact h2.1
    have hcm : c ≠ '-' := by
      intro hh
      rw [hh] at hc
      exact absurd hc (by decide)
    have hcp : c ≠ '+' := by
      intro hh
      rw [hh] at hc
      exact absurd hc (by decide)
    rw [hd] at h2
    rw [if_neg (by simp), if_neg (by simp [hcm]), if_neg (by simp [hcp]), if_pos h2]

theorem parseTimeString_isSome_of_validHHMM (tz d : Int) (t : String)
    (hv : validHHMM t = true) : (parseTimeString tz t d).isSome = true := by
  unfold validHHMM at hv
  rcases hs : jsSplit t ':' with _ | ⟨h1, tl⟩
  · rw [hs] at hv; cases hv
  · rcases tl with _ | ⟨m1, tl2⟩
    · rw [hs] at hv; cases hv
    · rcases tl2 with _ | ⟨x, tl3⟩
      · rw [hs] at hv
        simp only [Bool.and_eq_true, decide_eq_true_eq] at hv
        obtain ⟨⟨⟨⟨⟨hne1, hdig1⟩, hne2⟩, hdig2⟩, _⟩, _⟩ := hv
        unfold parseTimeString
        rw [hs, List.map_cons, List.map_cons, List.map_nil,
            jsNumber_digits h1 hne1 hdig1, jsNumber_digits m1 hne2 hdig2]
        rfl
      · rw [hs] at hv; cases hv

/-- Claim C4: reconcile is a total reset. For well-formed slot times, the
result of `setupAlarms` does not depend on the prior store state (so running
it twice in a row with the same desired set gives the same store as once),
its record ids are unique, the resulting store holds exactly one record per
desired slot id, and every resulting record belongs to some desired slot. -/
theorem claim_C4 (tz : Int) (master : Bool) (en : List String)
    (slots : List TimeSlot) (d : Int) (s s2 : Store)
    (hv : ∀ sl ∈ desiredSlots master en slots d, validHHMM sl.time = true) :
    setupAlarms tz master en slots d s = setupAlarms tz master en slots d s2 ∧
    uniqueIds (setupAlarms tz master en slots d s) ∧
    (∀ sl ∈ desiredSlots master en slots d,
      ((setupAlarms tz master en slots d s).filter
        (fun r => r.id = generateAlarmId d sl.time sl.subject)).length = 1) ∧
    (∀ rec ∈ setupAlarms tz master en slots d s,
      ∃ sl ∈ desiredSlots master en slots d,
        rec.id = generateAlarmId d sl.time sl.subject) := by
  have heq := setupAlarms_eq tz master en slots d s
  have heq2 := setupAlarms_eq tz master en slots d s2
  have hu2 : uniqueIds (((desiredSlots master en slots d).map (alarmInfoOf tz d)).foldl
      (fun st a => scheduleAlarm a st) []) :=
    foldl_schedule_unique _ [] (by simp [uniqueIds])
  refine ⟨heq.trans heq2.symm, ?_, ?_, ?_⟩
  · rw [heq]; exact hu2
  · intro sl hsl
    rw [heq]
    have hin : generateAlarmId d sl.time sl.subject ∈
        (((desiredSlots master en slots d).map (alarmInfoOf tz d)).foldl
          (fun st a => scheduleAlarm a st) []).map (fun r => r.id) := by
      rw [ids_foldl_schedule]
      right
      refine ⟨alarmInfoOf tz d sl, List.mem_map_of_mem _ hsl, rfl, ?_, rfl⟩
      show (calculateAlarmTime (parseTimeString tz sl.time d)).isSome = true
      have hps := parseTimeString_isSome_of_validHHMM tz d sl.time (hv sl hsl)
      cases hp : parseTimeString tz sl.time d with
      | none => rw [hp] at hps; cases hps
      | some v => rfl
    obtain ⟨rec, hrec, hrecid⟩ := List.mem_map.mp hin
    rw [← hrecid, filter_id_singleton hu2 hrec]
    rfl
  · intro rec hrec
    rw [heq] at hrec
    rcases mem_foldl_schedule _ [] rec hrec with h | ⟨info, hinfo, dd, tt, _, _, hxeq⟩
    · cases h
    · obtain ⟨sl, hsl, hslinfo⟩ := List.mem_map.mp hinfo
      refine ⟨sl, hsl, ?_⟩
      rw [hxeq, ← hslinfo]
      rfl

/-- Witness for C4: reconciling the desired set { 09:15-Econ } over a store
pre-populated with a stale record equals reconciling over the empty store,
and the result holds exactly one record for the desired slot. -/
theorem claim_C4_witness :
    (∀ sl ∈ desiredSlots true [] [({ time := "09:15", subject := "Econ" } : TimeSlot)] 0,
      validHHMM sl.time = true) ∧
    setupAlarms 0 true [] [({ time := "09:15", subject := "Econ" } : TimeSlot)] 0
        [{ id := "stale", time := "11:00", subject := "B",
           date := 0, alarmTime := 5, enabled := true }] =
      setupAlarms 0 true [] [({ time := "09:15", subject := "Econ" } : TimeSlot)] 0 [] ∧
    (∀ sl ∈ desiredSlots true [] [({ time := "09:15", subject := "Econ" } : TimeSlot)] 0,
      ((setupAlarms 0 true [] [({ time := "09:15", subject := "Econ" } : TimeSlot)] 0
          [{ id := "stale", time := "11:00", subject := "B",
             date := 0, alarmTime := 5, enabled := true }]).filter
        (fun r => r.id = generateAlarmId 0 sl.time sl.subject)).length = 1) :=
  ⟨by decide,
   (claim_C4 0 true [] [{ time := "09:15", subject := "Econ" }] 0
      [{ id := "stale", time := "11:00", subject := "B",
         date := 0, alarmTime := 5, enabled := true }] [] (by decide)).1,
   (claim_C4 0 true [] [{ time := "09:15", subject := "Econ" }] 0
      [{ id := "stale", time := "11:00", subject := "B",
         date := 0, alarmTime := 5, enabled := true }] [] (by decide)).2.2.1⟩

/-- Counterexample for C8: the slot time `":30"` is not parseable as HH:MM
(its hour component is empty), yet the reconcile step is not skipped — JS
`Number("")` coerces to 0, so a well-formed enabled record for that slot id
is written to the durable store. -/
theorem claim_C8_counterexample :
    validHHMM ":30" = false ∧
    (setupAlarms 0 true [] [{ time := ":30", subject := "X" }]
        (localMidnight 0 2025 11 3) []).map (fun r => r.id) = ["2025-11-03-:30-X"] ∧
    (setupAlarms 0 true [] [{ time := ":30", subject := "X" }]
        (localMidnight 0 2025 11 3) []).all (fun r => r.enabled) = true :=
  ⟨by decide, by decide, by decide⟩

/-- Claim C8 as amended, stated on the modelled coercion fragment: the
hypotheses confine the slot times to components that are either genuinely
NaN under the complete JavaScript string-numeric test (`numberNaN`) or
integer strings of moderate magnitude, the selected date to a real Date
instant and the host offset to a real timezone — the fragment on which the
integer embedding coincides with the JavaScript Date computation and the
Date TimeClip bound cannot trigger. On that fragment: a desired slot whose
hour or minute component coerces to NaN — missing, or failing the
string-numeric production after whitespace trimming, e.g. `"ab:cd"` — is
skipped: the parsed date is invalid, serialization throws inside the caught
`saveAlarmToDB`, and no record under its id is written. A slot whose
components merely coerce oddly (such as `":30"`) does produce a record.
And no partially-invalid record is ever written: every stored record
carries a successfully parsed class time and `alarmTime` exactly ten
minutes before it, and is enabled. -/
theorem claim_C8_amended (tz : Int) (master : Bool) (en : List String)
    (slots : List TimeSlot) (d : Int) (s : Store) (sl : TimeSlot)
    (htz : -1440 ≤ tz ∧ tz ≤ 1440)
    (hdate : -4000000000000000 ≤ d ∧ d ≤ 4000000000000000)
    (hmod : ∀ sl2 ∈ desiredSlots master en slots d, timeModeled sl2.time = true)
    (hsl : sl ∈ desiredSlots master en slots d)
    (hbad : timeNaN sl.time = true)
    (honly : ∀ sl2 ∈ desiredSlots master en slots d,
      generateAlarmId d sl2.time sl2.subject = generateAlarmId d sl.time sl.subject →
      timeNaN sl2.time = true) :
    (∀ rec ∈ setupAlarms tz master en slots d s,
      rec.id ≠ generateAlarmId d sl.time sl.subject) ∧
    (∀ rec ∈ setupAlarms tz master en slots d s,
      ∃ sl2 ∈ desiredSlots master en slots d, ∃ ct,
        rec.time = sl2.time ∧ parseTimeString tz sl2.time d = some ct ∧
        rec.alarmTime = ct - 600000 ∧ rec.enabled = true) := by
  have hmain : ∀ rec ∈ setupAlarms tz master en slots d s,
      ∃ sl2 ∈ desiredSlots master en slots d, ∃ ct,
        rec.id = generateAlarmId d sl2.time sl2.subject ∧
        rec.time = sl2.time ∧ parseTimeString tz sl2.time d = some ct ∧
        rec.alarmTime = ct - 600000 ∧ rec.enabled = true := by
    intro rec hrec
    rw [setupAlarms_eq] at hrec
    rcases mem_foldl_schedule _ [] rec hrec with h | ⟨info, hinfo, dd, tt, hd2, ht2, hxeq⟩
    · cases h
    · obtain ⟨sl2, hsl2, hslinfo⟩ := List.mem_map.mp hinfo
      subst hslinfo
      have hcalc : calculateAlarmTime (parseTimeString tz sl2.time d) = some tt := ht2
      cases hp : parseTimeString tz sl2.time d with
      | none =>
          rw [hp] at hcalc
          simp [calculateAlarmTime] at hcalc
      | some ct =>
          rw [hp] at hcalc
          have htt : tt = ct - 600000 := by
            have h2 : some (ct - 600000) = some tt := hcalc
            exact (Option.some.inj h2).symm
          refine ⟨sl2, hsl2, ct, ?_, ?_, hp, ?_, ?_⟩
          · rw [hxeq]; rfl
          · rw [hxeq]; rfl
          · rw [hxeq]; exact htt
          · rw [hxeq]; rfl
  constructor
  · intro rec hrec hid2
    obtain ⟨sl2, hsl2, ct, hid, _, hp, _, _⟩ := hmain rec hrec
    rw [parse_none_of_timeNaN tz d sl2.time
      (honly sl2 hsl2 (hid.symm.trans hid2))] at hp
    cases hp
  · intro rec hrec
    obtain ⟨sl2, hsl2, ct, _, h2, h3, h4, h5⟩ := hmain rec hrec
    exact ⟨sl2, hsl2, ct, h2, h3, h4, h5⟩

/-- Witness for C8 (amended): the desired slot with time `"ab:cd"` is in
the modelled fragment, its components coerce to NaN, and no record under
its id is written. -/
theorem claim_C8_witness :
    (({ time := "ab:cd", subject := "E" } : TimeSlot) ∈
      desiredSlots true [] [{ time := "ab:cd", subject := "E" }] 0) ∧
    timeNaN "ab:cd" = true ∧
    timeModeled "ab:cd" = true ∧
    (∀ rec ∈ setupAlarms 0 true [] [{ time := "ab:cd", subject := "E" }] 0 [],
      rec.id ≠ generateAlarmId 0 "ab:cd" "E") :=
  ⟨by decide, by decide, by decide,
   (claim_C8_amended 0 true [] [{ time := "ab:cd", subject := "E" }] 0 []
      { time := "ab:cd", subject := "E" } (by decide) (by decide) (by decide)
      (by decide) (by decide) (by decide)).1⟩

/-! ## Local-midnight arithmetic for the id and fire-time claims -/

theorem localMidnight_localDay (tz y mo dy : Int) :
    (localMidnight tz y mo dy + tz * 60000) / 86400000 = daysFromCivil y mo dy := by
  unfold localMidnight
  have h : daysFromCivil y mo dy * 86400000 - tz * 60000 + tz * 60000 =
      daysFromCivil y mo dy * 86400000 := by ring
  rw [h]
  exact Int.mul_ediv_cancel _ (by norm_num)

theorem isoDateString_localMidnight (tz y mo dy : Int)
    (hlo : -1440 < tz) (hhi : tz ≤ 0) :
    isoDateString (localMidnight tz y mo dy) =
      isoDateString (daysFromCivil y mo dy * 86400000) := by
  unfold isoDateString localMidnight
  have hday : (daysFromCivil y mo dy * 86400000 - tz * 60000) / 86400000 =
      daysFromCivil y mo dy * 86400000 / 86400000 := by
    have h1 : daysFromCivil y mo dy * 86400000 - tz * 60000 =
        -(tz * 60000) + daysFromCivil y mo dy * 86400000 := by ring
    rw [h1, Int.add_mul_ediv_right _ _ (by norm_num : (86400000 : Int) ≠ 0),
        Int.mul_ediv_cancel _ (by norm_num : (86400000 : Int) ≠ 0),
        Int.ediv_eq_zero_of_lt (by omega) (by omega)]
    ring
  rw [hday]

theorem isoDateString_localMidnight_east (tz y mo dy : Int)
    (hlo : 0 < tz) (hhi : tz < 1440) :
    isoDateString (localMidnight tz y mo dy) =
      isoDateString ((daysFromCivil y mo dy - 1) * 86400000) := by
  unfold isoDateString localMidnight
  have hday : (daysFromCivil y mo dy * 86400000 - tz * 60000) / 86400000 =
      (daysFromCivil y mo dy - 1) * 86400000 / 86400000 := by
    have h1 : daysFromCivil y mo dy * 86400000 - tz * 60000 =
        (86400000 - tz * 60000) + (daysFromCivil y mo dy - 1) * 86400000 := by ring
    rw [h1, Int.add_mul_ediv_right _ _ (by norm_num : (86400000 : Int) ≠ 0),
        Int.mul_ediv_cancel _ (by norm_num : (86400000 : Int) ≠ 0),
        Int.ediv_eq_zero_of_lt (by omega) (by omega)]
    ring
  rw [hday]

theorem parseTimeString_localMidnight (tz y mo dy hh mm : Int) (t : String)
    (h0 : ((jsSplit t ':').map jsNumber).get? 0 = some (some hh))
    (h1 : ((jsSplit t ':').map jsNumber).get? 1 = some (some mm)) :
    parseTimeString tz t (localMidnight tz y mo dy) =
      some (localMidnight tz y mo dy + hh * 3600000 + mm * 60000) := by
  simp only [parseTimeString]
  rw [h0, h1]
  show some ((localMidnight tz y mo dy + tz * 60000) / 86400000 * 86400000 +
      hh * 3600000 + mm * 60000 - tz * 60000) =
    some (localMidnight tz y mo dy + hh * 3600000 + mm * 60000)
  rw [localMidnight_localDay]
  congr 1
  unfold localMidnight
  ring

/-- Counterexample for C5: in a host timezone east of UTC (IST, +330 min),
reconciling the desired set { 09:15-Econ } for the selected calendar date
2025-11-03 inserts a record whose id carries the PREVIOUS day —
`generateAlarmId` extracts the UTC date of the local-midnight instant via
`toISOString`, so the id is not built from the selected calendar date. -/
theorem claim_C5_counterexample :
    (setupAlarms 330 true [] [{ time := "09:15", subject := "Econ" }]
        (localMidnight 330 2025 11 3) []).map (fun r => r.id) =
      ["2025-11-02-09:15-Econ"] ∧
    ("2025-11-02-09:15-Econ" : String) ≠ "2025-11-03-09:15-Econ" :=
  ⟨by decide, by decide⟩

/-- Claim C5 as amended: the id is the deterministic string
`date-time-subject` where the date component is the UTC calendar day of the
local-midnight instant of the selected date (`generateAlarmId` uses
`toISOString`). In every timezone, reconciling { 09:15-Econ } for
2025-11-03 inserts exactly one record, carrying that id and
`alarmTime = classTime − 10 min` — 09:05 local, i.e. local midnight plus
545 minutes. The date component of the id equals the selected calendar
date exactly for host timezones at or west of UTC (`-1440 < tz ≤ 0`
minutes east); for every timezone strictly east of UTC (`0 < tz < 1440`)
it names the previous day, so the id differs from the one the spec
describes. -/
theorem claim_C5_amended :
    (∀ tz : Int,
      setupAlarms tz true [] [{ time := "09:15", subject := "Econ" }]
          (localMidnight tz 2025 11 3) [] =
        [{ id := generateAlarmId (localMidnight tz 2025 11 3) "09:15" "Econ",
           time := "09:15", subject := "Econ",
           date := localMidnight tz 2025 11 3,
           alarmTime := localMidnight tz 2025 11 3 + 545 * 60000,
           enabled := true }]) ∧
    (∀ tz : Int, -1440 < tz → tz ≤ 0 →
      generateAlarmId (localMidnight tz 2025 11 3) "09:15" "Econ" =
        "2025-11-03-09:15-Econ") ∧
    (∀ tz : Int, 0 < tz → tz < 1440 →
      generateAlarmId (localMidnight tz 2025 11 3) "09:15" "Econ" =
        "2025-11-02-09:15-Econ") ∧
    (∀ tz : Int, 0 < tz → tz < 1440 →
      generateAlarmId (localMidnight tz 2025 11 3) "09:15" "Econ" ≠
        "2025-11-03-09:15-Econ") := by
  have heast : ∀ tz : Int, 0 < tz → tz < 1440 →
      generateAlarmId (localMidnight tz 2025 11 3) "09:15" "Econ" =
        "2025-11-02-09:15-Econ" := by
    intro tz h1 h2
    unfold generateAlarmId
    rw [isoDateString_localMidnight_east tz 2025 11 3 h1 h2]
    decide
  refine ⟨?_, ?_, heast, ?_⟩
  · intro tz
    have hparse : parseTimeString tz "09:15" (localMidnight tz 2025 11 3) =
        some (localMidnight tz 2025 11 3 + 9 * 3600000 + 15 * 60000) :=
      parseTimeString_localMidnight tz 2025 11 3 9 15 "09:15" (by decide) (by decide)
    have halarm : (alarmInfoOf tz (localMidnight tz 2025 11 3)
        { time := "09:15", subject := "Econ" }).alarmTime =
        some (localMidnight tz 2025 11 3 + 545 * 60000) := by
      show calculateAlarmTime (parseTimeString tz "09:15" (localMidnight tz 2025 11 3)) = _
      rw [hparse]
      show some (localMidnight tz 2025 11 3 + 9 * 3600000 + 15 * 60000 - 600000) = _
      congr 1
      ring
    have hdes : desiredSlots true [] [({ time := "09:15", subject := "Econ" } : TimeSlot)]
        (localMidnight tz 2025 11 3) = [{ time := "09:15", subject := "Econ" }] := rfl
    rw [setupAlarms_eq, hdes, List.map_cons, List.map_nil, List.foldl_cons, List.foldl_nil]
    rw [scheduleAlarm_eq, halarm]
    rw [show (alarmInfoOf tz (localMidnight tz 2025 11 3)
        ({ time := "09:15", subject := "Econ" } : TimeSlot)).date =
        some (localMidnight tz 2025 11 3) from rfl]
    show putRecord (storedOf (alarmInfoOf tz (localMidnight tz 2025 11 3)
        { time := "09:15", subject := "Econ" }) (localMidnight tz 2025 11 3)
        (localMidnight tz 2025 11 3 + 545 * 60000)) [] = _
    rfl
  · intro tz hlo hhi
    unfold generateAlarmId
    rw [isoDateString_localMidnight tz 2025 11 3 hlo hhi]
    decide
  · intro tz h1 h2
    rw [heast tz h1 h2]
    decide

/-- Witness for C5 (amended): the single-record conclusion applied at IST
(+330), the selected-date id at UTC, and the previous-day id (differing
from the spec example) at IST. -/
theorem claim_C5_witness :
    setupAlarms 330 true [] [{ time := "09:15", subject := "Econ" }]
        (localMidnight 330 2025 11 3) [] =
      [{ id := generateAlarmId (localMidnight 330 2025 11 3) "09:15" "Econ",
         time := "09:15", subject := "Econ",
         date := localMidnight 330 2025 11 3,
         alarmTime := localMidnight 330 2025 11 3 + 545 * 60000,
         enabled := true }] ∧
    ((-1440 : Int) < 0 ∧ (0 : Int) ≤ 0 ∧
      generateAlarmId (localMidnight 0 2025 11 3) "09:15" "Econ" =
        "2025-11-03-09:15-Econ") ∧
    ((0 : Int) < 330 ∧ (330 : Int) < 1440 ∧
      generateAlarmId (localMidnight 330 2025 11 3) "09:15" "Econ" =
        "2025-11-02-09:15-Econ") ∧
    generateAlarmId (localMidnight 330 2025 11 3) "09:15" "Econ" ≠
      "2025-11-03-09:15-Econ" :=
  ⟨claim_C5_amended.1 330,
   ⟨by decide, by decide, claim_C5_amended.2.1 0 (by decide) (by decide)⟩,
   ⟨by decide, by decide, claim_C5_amended.2.2.1 330 (by decide) (by decide)⟩,
   claim_C5_amended.2.2.2 330 (by decide) (by decide)⟩

/-! ## Notification-centre dedup discipline -/

theorem applyEvents_append (e1 e2 : List Event) (c : List String) :
    applyEvents (e1 ++ e2) c = applyEvents e2 (applyEvents e1 c) := by
  unfold applyEvents
  exact List.foldl_append _ _ _ _

theorem nodup_closeShow {c : List String} (h : c.Nodup) (g : String) :
    ((c.filter (fun x => x ≠ g)) ++ [g]).Nodup := by
  rw [List.nodup_append]
  refine ⟨h.filter _, List.nodup_singleton g, ?_⟩
  intro x hx hg
  have hxg : x = g := by simpa using hg
  have hne : ¬ (x = g) := by simpa using (List.mem_filter.mp hx).2
  exact hne hxg

theorem step_apply_nodup (now : Int) (r : RingingMap) (a : StoredAlarm)
    {c : List String} (h : c.Nodup) :
    (applyEvents (checkAlarmsStep now r a).2 c).Nodup := by
  by_cases he : a.enabled
  · by_cases hw : (-60000 ≤ now - a.alarmTime ∧ now - a.alarmTime < 120000)
    · cases hk : lookupR r a.id with
      | none =>
          rw [step_new now r a he hw hk]
          show ((c.filter (fun x => x ≠ alarmTag a.id)) ++ [alarmTag a.id]).Nodup
          exact nodup_closeShow h _
      | some ra =>
          by_cases ht : now - lntOf ra > 30000
          · rw [step_reassert now r a ra he hw hk ht]
            show ((c.filter (fun x => x ≠ alarmTag a.id)) ++ [alarmTag a.id]).Nodup
            exact nodup_closeShow h _
          · rw [step_quiet now r a ra he hw hk ht]
            exact h
    · rw [step_outside now r a he hw]
      exact h
  · rw [step_disabled now r a (by simpa using he)]
    exact h

theorem runList_apply_nodup (now : Int) :
    ∀ (l : List StoredAlarm) (r : RingingMap) (c : List String), c.Nodup →
      (applyEvents (runList now l r).2 c).Nodup := by
  intro l
  induction l with
  | nil => intro r c h; exact h
  | cons a t ih =>
      intro r c h
      rw [runList_cons]
      show (applyEvents ((checkAlarmsStep now r a).2 ++
        (runList now t (checkAlarmsStep now r a).1).2) c).Nodup
      rw [applyEvents_append]
      exact ih (checkAlarmsStep now r a).1 _ (step_apply_nodup now r a h)

/-- Counterexample for C6: a record that starts ringing at `t = 0` and is
never dismissed or snoozed has its alert re-asserted only at the scan times
`t = 0` and `t = 60000` — scans run on a 60-second period, so 60 seconds
(not at most 30) elapse between consecutive re-assertions, and no
re-assertion at all happens strictly inside that minute; the claim that the
dispatcher re-asserts the alert at least every 30 seconds is false. -/
theorem claim_C6_counterexample :
    (runScansTimed [0, 60000]
        [{ id := "X", time := "09:15", subject := "Econ",
           date := 0, alarmTime := 0, enabled := true }] []).2.filter
      (fun p => match p.2 with | Event.notifShown _ => true | _ => false) =
      [(0, Event.notifShown "alarm-X"), (60000, Event.notifShown "alarm-X")] ∧
    hasKeyR (runScansTimed [0, 60000]
        [{ id := "X", time := "09:15", subject := "Econ",
           date := 0, alarmTime := 0, enabled := true }] []).1 "X" = true ∧
    (60000 : Int) - 0 > 30000 :=
  ⟨by decide, by decide, by decide⟩

/-- Claim C6 as amended: while a record is tracked as ringing and the scan
time is still inside the firing window, every scan re-broadcasts
`ALARM_RINGING` and — whenever more than 30 s have passed since the last
notification — closes the alert keyed `alarm-id` and re-shows it; since
scans run every 60 s, re-assertion happens at least once per minute, not
every 30 s, and stops entirely once `now ≥ fireTime + 120 s` even while
still ringing. Re-assertion is idempotent: under close-before-show the
notification centre never holds two alerts with the same tag. -/
theorem claim_C6_amended :
    (∀ (now : Int) (s : Store) (r : RingingMap) (a : StoredAlarm) (ra : RingingInfo),
      uniqueIds s → a ∈ s → a.enabled = true →
      lookupR r a.id = some ra →
      (-60000 ≤ now - a.alarmTime ∧ now - a.alarmTime < 120000) →
      now - lntOf ra > 30000 →
      Event.notifClosed (alarmTag a.id) ∈ (checkAlarms now s r).2 ∧
      Event.notifShown (alarmTag a.id) ∈ (checkAlarms now s r).2 ∧
      Event.alarmRinging a.id ∈ (checkAlarms now s r).2) ∧
    (∀ (now : Int) (s : Store) (r : RingingMap) (c : List String), c.Nodup →
      (applyEvents (checkAlarms now s r).2 c).Nodup) ∧
    (∀ (now : Int) (s : Store) (r : RingingMap) (a : StoredAlarm),
      uniqueIds s → a ∈ s → 120000 ≤ now - a.alarmTime →
      ∀ e ∈ (checkAlarms now s r).2, touchesId a.id e = false) := by
  refine ⟨?_, ?_, ?_⟩
  · intro now s r a ra hu ha he hl hw ht
    have hcand : a.alarmTime ≤ now + 60000 := by omega
    obtain ⟨_, h2⟩ := checkAlarms_cand now s r a hu ha hcand
    rw [step_reassert now r a ra he hw hl ht] at h2
    refine ⟨?_, ?_, ?_⟩
    · have hm : Event.notifClosed (alarmTag a.id) ∈
          ((checkAlarms now s r).2).filter (touchesId a.id) := by
        rw [h2]; simp [touchesId]
      exact (List.mem_filter.mp hm).1
    · have hm : Event.notifShown (alarmTag a.id) ∈
          ((checkAlarms now s r).2).filter (touchesId a.id) := by
        rw [h2]; simp [touchesId]
      exact (List.mem_filter.mp hm).1
    · have hm : Event.alarmRinging a.id ∈
          ((checkAlarms now s r).2).filter (touchesId a.id) := by
        rw [h2]; simp [touchesId]
      exact (List.mem_filter.mp hm).1
  · intro now s r c h
    exact runList_apply_nodup now _ r c h
  · intro now s r a hu ha hlate
    exact (silent_scan now s r a hu ha (Or.inr (by omega))).2

/-- Witness for C6 (amended): a tracked in-window record 31 s past its last
notification is re-asserted and re-broadcast; the dedup invariant holds on
a concrete centre; a record two minutes past its fire time gets no effect. -/
theorem claim_C6_witness :
    (Event.notifShown (alarmTag "X") ∈ (checkAlarms 60000
      [{ id := "X", time := "09:15", subject := "Econ",
         date := 0, alarmTime := 0, enabled := true }]
      [("X", { startTime := 0, snoozeCount := 0, lastNotificationTime := 0 })]).2 ∧
     Event.alarmRinging "X" ∈ (checkAlarms 60000
      [{ id := "X", time := "09:15", subject := "Econ",
         date := 0, alarmTime := 0, enabled := true }]
      [("X", { startTime := 0, snoozeCount := 0, lastNotificationTime := 0 })]).2) ∧
    (applyEvents (checkAlarms 60000
      [{ id := "X", time := "09:15", subject := "Econ",
         date := 0, alarmTime := 0, enabled := true }]
      [("X", { startTime := 0, snoozeCount := 0, lastNotificationTime := 0 })]).2
      ["alarm-X"]).Nodup ∧
    (∀ e ∈ (checkAlarms 120000
      [{ id := "X", time := "09:15", subject := "Econ",
         date := 0, alarmTime := 0, enabled := true }]
      [("X", { startTime := 0, snoozeCount := 0, lastNotificationTime := 0 })]).2,
      touchesId "X" e = false) :=
  ⟨⟨((claim_C6_amended.1 60000
      [{ id := "X", time := "09:15", subject := "Econ",
         date := 0, alarmTime := 0, enabled := true }]
      [("X", { startTime := 0, snoozeCount := 0, lastNotificationTime := 0 })]
      { id := "X", time := "09:15", subject := "Econ",
        date := 0, alarmTime := 0, enabled := true }
      { startTime := 0, snoozeCount := 0, lastNotificationTime := 0 }
      (by decide) (by decide) (by decide) (by decide)
      (by decide) (by decide)).2.1),
    ((claim_C6_amended.1 60000
      [{ id := "X", time := "09:15", subject := "Econ",
         date := 0, alarmTime := 0, enabled := true }]
      [("X", { startTime := 0, snoozeCount := 0, lastNotificationTime := 0 })]
      { id := "X", time := "09:15", subject := "Econ",
        date := 0, alarmTime := 0, enabled := true }
      { startTime := 0, snoozeCount := 0, lastNotificationTime := 0 }
      (by decide) (by decide) (by decide) (by decide)
      (by decide) (by decide)).2.2)⟩,
   claim_C6_amended.2.1 60000
      [{ id := "X", time := "09:15", subject := "Econ",
         date := 0, alarmTime := 0, enabled := true }]
      [("X", { startTime := 0, snoozeCount := 0, lastNotificationTime := 0 })]
      ["alarm-X"] (by decide),
   claim_C6_amended.2.2 120000
      [{ id := "X", time := "09:15", subject := "Econ",
         date := 0, alarmTime := 0, enabled := true }]
      [("X", { startTime := 0, snoozeCount := 0, lastNotificationTime := 0 })]
      { id := "X", time := "09:15", subject := "Econ",
        date := 0, alarmTime := 0, enabled := true }
      (by decide) (by decide) (by decide)⟩
